import Mathlib

/-!
# Wallet daemon manager (`walletdmanager`): embedding and verified properties

A shallow embedding of `src/walletdmanager/walletdmanager.go`.

* Go strings are modelled by `String`; `len` is the UTF-8 byte length.
* `float64` is modelled by `Float64` (NaN, the two infinities, and the finite values
  `m * 2 ^ e`), every arithmetic result being rounded to the nearest binary64 value, ties to
  even.
* Package-level variables become the fields of `State`; everything the operating system, the
  RPC peer and the daemon decide is an explicit input of the operation concerned, and everything
  an operation does to the outside world is recorded as a list of `Effect`s.
-/

namespace Walletd

/-! ## Go `float64` -/

/-- Values of Go's `float64`: NaN, the two infinities, and the finite values `m * 2 ^ e`.
The two signed zeros are not distinguished (the program only compares and adds). -/
inductive Float64 where
  | nan : Float64
  | inf (neg : Bool) : Float64
  | fin (m : Int) (e : Int) : Float64
  deriving DecidableEq

namespace Float64

/-- Auxiliary loop of `ilog2`. -/
def ilog2Aux : Nat → Nat → Nat
  | 0, _ => 0
  | fuel + 1, n => if n < 2 then 0 else ilog2Aux fuel (n / 2) + 1

/-- Position of the highest set bit: `2 ^ ilog2 n ≤ n < 2 ^ (ilog2 n + 1)` for `n > 0`. -/
def ilog2 (n : Nat) : Nat := ilog2Aux n n

/-- Exponent `e` with `2 ^ e ≤ n / d < 2 ^ (e + 1)`, for `n, d > 0`. -/
def binExp (n d : Nat) : Int :=
  let e0 : Int := (ilog2 n : Int) - (ilog2 d : Int)
  if 0 ≤ e0 then (if d <<< e0.toNat ≤ n then e0 else e0 - 1)
  else (if d ≤ n <<< (-e0).toNat then e0 else e0 - 1)

/-- Round `num / den` to the nearest natural number, ties to even. -/
def roundHalfEven (num den : Nat) : Nat :=
  let qt := num / den
  let r := num % den
  if 2 * r < den then qt
  else if den < 2 * r then qt + 1
  else if qt % 2 = 0 then qt else qt + 1

/-- Round the rational `± n / d` (`d > 0`) to the nearest `float64`, ties to even: a 53-bit
significand, the exponent clamped at the subnormal range, overflow giving an infinity. -/
def round (neg : Bool) (n d : Nat) : Float64 :=
  if n = 0 then fin 0 0
  else
    let e := max (binExp n d) (-1022)
    let k := e - 52
    let m := if 0 ≤ k then roundHalfEven n (d <<< k.toNat)
             else roundHalfEven (n <<< (-k).toNat) d
    if 0 ≤ k ∧ 1 <<< 1024 ≤ m <<< k.toNat then inf neg
    else fin (if neg then - (m : Int) else (m : Int)) k

/-- The integer `m * 2 ^ (e - min e e')`: the significand of `m * 2 ^ e` once both operands
of a binary operation are brought to the common exponent `min e e'`. -/
def align (m e e' : Int) : Int := m * ((1 <<< (e - min e e').toNat : Nat) : Int)

/-- Go `x + y` on `float64`. -/
def add : Float64 → Float64 → Float64
  | nan, _ => nan
  | _, nan => nan
  | inf a, inf b => if a = b then inf a else nan
  | inf a, fin _ _ => inf a
  | fin _ _, inf b => inf b
  | fin m e, fin m' e' =>
    let s := align m e e' + align m' e' e
    let k := min e e'
    if 0 ≤ k then round (decide (s < 0)) (s.natAbs <<< k.toNat) 1
    else round (decide (s < 0)) s.natAbs (1 <<< (-k).toNat)

/-- Go `x < y` on `float64`: false as soon as one side is NaN. -/
def lt : Float64 → Float64 → Bool
  | nan, _ => false
  | _, nan => false
  | inf a, inf b => a && !b
  | inf a, fin _ _ => a
  | fin _ _, inf b => !b
  | fin m e, fin m' e' => decide (align m e e' < align m' e' e)

/-- Go `x <= y` on `float64`: false as soon as one side is NaN. -/
def le : Float64 → Float64 → Bool
  | nan, _ => false
  | _, nan => false
  | inf a, inf b => a || !b
  | inf a, fin _ _ => a
  | fin _ _, inf b => !b
  | fin m e, fin m' e' => decide (align m e e' ≤ align m' e' e)

/-- Go `x > y` on `float64`. -/
def gt (x y : Float64) : Bool := lt y x

/-- The `float64` of an integer constant that is exactly representable (Go constant conversion
for the small literals of this program). -/
def ofInt (n : Int) : Float64 := fin n 0

end Float64


/-! ## Go strings and the `strings` package -/

/-- Go `len(s)`: the number of bytes of the string. -/
def len (s : String) : Nat := s.utf8ByteSize

/-- Go `strings.HasPrefix`. -/
def HasPrefix (s pre : String) : Bool := pre.data.isPrefixOf s.data

/-- Go `strings.HasSuffix`. -/
def HasSuffix (s suf : String) : Bool := suf.data.isSuffixOf s.data

/-- Does `sep` occur in `l`? (list form of `strings.Contains`) -/
def containsL (sep : List Char) : List Char → Bool
  | [] => sep.isEmpty
  | c :: cs => sep.isPrefixOf (c :: cs) || containsL sep cs

/-- Go `strings.Contains`. -/
def Contains (s substr : String) : Bool := containsL substr.data s.data

/-- The last piece of `strings.Split` on a non-empty separator, with an explicit count `skip`
of characters still belonging to the separator occurrence matched last: occurrences are taken
from left to right and never overlap. -/
def splitLastL (sep : List Char) : List Char → Nat → List Char → List Char
  | [], _, cur => cur.reverse
  | _ :: cs, skip + 1, _ => splitLastL sep cs skip []
  | c :: cs, 0, cur =>
    if sep.isPrefixOf (c :: cs) then splitLastL sep cs (sep.length - 1) []
    else splitLastL sep cs 0 (c :: cur)

/-- Go `splitLine := strings.Split(s, sep); splitLine[len(splitLine)-1]`, for a non-empty
separator. -/
def splitLast (s sep : String) : String := String.mk (splitLastL sep.data s.data 0 [])

/-- List form of `strings.Replace(s, old, new, 1)` for a non-empty `old`. -/
def replaceFirstL (old new : List Char) : List Char → List Char
  | [] => []
  | c :: cs =>
    if old.isPrefixOf (c :: cs) then new ++ (c :: cs).drop old.length
    else c :: replaceFirstL old new cs

/-- Go `strings.Replace(s, old, new, 1)` for a non-empty `old`: the first occurrence only. -/
def Replace1 (s old new : String) : String := String.mk (replaceFirstL old.data new.data s.data)

/-- Go `os.IsPathSeparator`; `windows` tells whether the program is built for Windows. -/
def IsPathSeparator (windows : Bool) (c : Char) : Bool :=
  c = '/' || (windows && c = '\\')

/-- Loop of `filepath.Ext` over the reversed path: walk back from the end until a dot (the
extension starts there) or a path separator (no extension). `acc` is the text walked over. -/
def extRev (windows : Bool) : List Char → List Char → List Char
  | [], _ => []
  | c :: rest, acc =>
    if IsPathSeparator windows c then []
    else if c = '.' then c :: acc
    else extRev windows rest (c :: acc)

/-- Go `filepath.Ext` (standard library): the suffix beginning at the final dot in the final
element of the path, empty if there is no dot. -/
def Ext (windows : Bool) (path : String) : String := String.mk (extRev windows path.data.reverse [])

/-! ## `strconv.ParseFloat` -/

/-- Case-insensitive comparison with a lower-case word, as done inside `strconv`. -/
def equalIgnoreCase (s : List Char) (w : String) : Bool := s.map Char.toLower == w.data

/-- The special values accepted by `strconv.ParseFloat`: `nan` (unsigned), and `inf` or
`infinity` with an optional sign, in any letter case. -/
def special (s : List Char) : Option Float64 :=
  match s with
  | '+' :: r =>
    if equalIgnoreCase r "inf" || equalIgnoreCase r "infinity" then some (.inf false) else none
  | '-' :: r =>
    if equalIgnoreCase r "inf" || equalIgnoreCase r "infinity" then some (.inf true) else none
  | _ =>
    if equalIgnoreCase s "nan" then some .nan
    else if equalIgnoreCase s "inf" || equalIgnoreCase s "infinity" then some (.inf false)
    else none

/-- The value of a mantissa digit as `readFloat` reads it: a decimal digit, or with the `0x`
prefix also a letter `a`..`f` in either case. -/
def digitValue (hex : Bool) (c : Char) : Option Nat :=
  if c.isDigit then some (c.toNat - '0'.toNat)
  else if hex && decide ('a' ≤ c.toLower) && decide (c.toLower ≤ 'f') then
    some (c.toLower.toNat - 'a'.toNat + 10)
  else none

/-- Mantissa loop of `strconv`'s `readFloat`: digits of the base with at most one dot,
underscores being skipped. Returns the digits read as a number, whether a digit was seen, the
number of digits after the dot, whether an underscore was seen, and the rest. -/
def readMantissa (hex : Bool) :
    List Char → Nat → Bool → Bool → Nat → Bool → Nat × Bool × Nat × Bool × List Char
  | [], mant, _, sawdigits, frac, underscores => (mant, sawdigits, frac, underscores, [])
  | c :: cs, mant, sawdot, sawdigits, frac, underscores =>
    if c = '_' then readMantissa hex cs mant sawdot sawdigits frac true
    else if c = '.' then
      if sawdot then (mant, sawdigits, frac, underscores, c :: cs)
      else readMantissa hex cs mant true sawdigits frac underscores
    else
      match digitValue hex c with
      | some d =>
        readMantissa hex cs (mant * (if hex then 16 else 10) + d) sawdot true
          (if sawdot then frac + 1 else frac) underscores
      | none => (mant, sawdigits, frac, underscores, c :: cs)

/-- Exponent digits loop of `readFloat`: decimal digits and underscores; the accumulation
stops growing at 10000. Returns the exponent, whether an underscore was seen, and the rest. -/
def readExpDigits : List Char → Nat → Bool → Nat × Bool × List Char
  | [], e, underscores => (e, underscores, [])
  | c :: cs, e, underscores =>
    if c = '_' then readExpDigits cs e true
    else if c.isDigit then
      readExpDigits cs (if e < 10000 then e * 10 + (c.toNat - '0'.toNat) else e) underscores
    else (e, underscores, c :: cs)

/-- Exponent part of `readFloat`, introduced by `e` (decimal) or `p` (hexadecimal, where it
is mandatory): `none` is a syntax error, otherwise the signed exponent, whether an underscore
was seen, and the unread rest. -/
def readExponent (hex : Bool) : List Char → Option (Int × Bool × List Char)
  | [] => if hex then none else some (0, false, [])
  | c :: cs =>
    if c.toLower = (if hex then 'p' else 'e') then
      match cs with
      | [] => none
      | d :: ds =>
        let (esign, r) : Int × List Char :=
          if d = '+' then (1, ds) else if d = '-' then (-1, ds) else (1, d :: ds)
        match r with
        | [] => none
        | x :: _ =>
          if x.isDigit then
            let (e, underscores, rest) := readExpDigits r 0 false
            some (esign * (e : Int), underscores, rest)
          else none
    else if hex then none
    else some (0, false, c :: cs)

/-- Loop of `strconv`'s `underscoreOK`; `saw` is the last kind of character seen: `'0'` for a
digit or base prefix, `'_'` for an underscore, `'^'` for the beginning, `'!'` otherwise. -/
def underscoreOKLoop (hex : Bool) : List Char → Char → Bool
  | [], saw => saw ≠ '_'
  | c :: cs, saw =>
    if c.isDigit || (hex && decide ('a' ≤ c.toLower) && decide (c.toLower ≤ 'f')) then
      underscoreOKLoop hex cs '0'
    else if c = '_' then
      if saw ≠ '0' then false else underscoreOKLoop hex cs '_'
    else if saw = '_' then false
    else underscoreOKLoop hex cs '!'

/-- Go `underscoreOK` of `strconv`: an underscore must stand between two digits, or between
a base prefix and a digit. -/
def underscoreOK (s : List Char) : Bool :=
  let s :=
    match s with
    | '-' :: r => r
    | '+' :: r => r
    | _ => s
  match s with
  | '0' :: c :: r =>
    if c.toLower = 'b' || c.toLower = 'o' || c.toLower = 'x' then
      underscoreOKLoop (c.toLower = 'x') r '0'
    else underscoreOKLoop false s '^'
  | _ => underscoreOKLoop false s '^'

/-- Floating-point syntax of `strconv.ParseFloat` (`readFloat` followed by the conversion):
optional sign, optional `0x` prefix, digits of the base with an optional dot, exponent (`e`
with a power of ten, or `p` with a power of two after the `0x` prefix), underscores allowed
where `underscoreOK` accepts them; the whole input must be consumed. The value is rounded to
the nearest `float64`; a result that overflows is a range error. -/
def parseNumber (s : List Char) : Option Float64 :=
  let (neg, body) : Bool × List Char :=
    match s with
    | '+' :: r => (false, r)
    | '-' :: r => (true, r)
    | _ => (false, s)
  let (hex, digits) : Bool × List Char :=
    match body with
    | '0' :: x :: c :: r => if x.toLower = 'x' then (true, c :: r) else (false, body)
    | _ => (false, body)
  let (mant, sawdigits, frac, u1, rest) := readMantissa hex digits 0 false false 0 false
  if !sawdigits then none
  else
    match readExponent hex rest with
    | some (e, u2, []) =>
      if (u1 || u2) && !underscoreOK s then none
      else
        let exp : Int := if hex then e - 4 * (frac : Int) else e - (frac : Int)
        let v :=
          if hex then
            if 0 ≤ exp then Float64.round neg (mant <<< exp.toNat) 1
            else Float64.round neg mant (1 <<< (-exp).toNat)
          else
            if 0 ≤ exp then Float64.round neg (mant * 10 ^ exp.toNat) 1
            else Float64.round neg mant (10 ^ (-exp).toNat)
        match v with
        | .inf _ => none
        | _ => some v
    | _ => none

/-- Go `strconv.ParseFloat(s, 64)` (standard library), `none` standing for `err != nil`: the
special values, and the decimal and hexadecimal floating-point syntax with digit-separating
underscores. -/
def ParseFloat (s : String) : Option Float64 :=
  match special s.data with
  | some v => some v
  | none => parseNumber s.data

/-! ## Go `int` -/

/-- Reduce an integer to the range of Go's 64-bit `int` (two's complement wrap-around). -/
def wrapInt (x : Int) : Int := (x + 2 ^ 63) % 2 ^ 64 - 2 ^ 63

/-! ## Package state, the outside world, effects -/

/-- The handle kept in `cmdWalletd` (`*exec.Cmd`): the command line it was built with. -/
structure Cmd where
  path : String
  args : List String
  deriving DecidableEq

/-- The package-level variables of `walletdmanager.go`. -/
structure State where
  WalletAvailableBalance : Float64
  WalletAddress : String
  WalletFilename : String
  rpcPassword : String
  cmdWalletd : Option Cmd
  WalletdOpenAndRunning : Bool
  WalletdSynced : Bool
  isPlatformDarwin : Bool
  isPlatformLinux : Bool
  isPlatformWindows : Bool
  deriving DecidableEq

/-- The initial values of the package-level variables. -/
def State.init : State where
  WalletAvailableBalance := .fin 0 0
  WalletAddress := ""
  WalletFilename := ""
  rpcPassword := ""
  cmdWalletd := none
  WalletdOpenAndRunning := false
  WalletdSynced := false
  isPlatformDarwin := false
  isPlatformLinux := true
  isPlatformWindows := false

/-! The four names below carry the values given in the `var` block of `walletdmanager.go`
(the `const` block of `constants.go` spells them for AnonCoin). The general theorems do not
depend on the values. -/

def logWalletdCurrentSessionFilename : String := "walletdCurrentSession.log"

def logWalletdAllSessionsFilename : String := "walletd.log"

def walletdCommandName : String := "walletd"

def turtlecoindCommandName : String := "TurtleCoind"

/-- What an operation does to the outside world, in program order. Logging through `logrus`
is left out, except `log.Fatal`, which ends the program. -/
inductive Effect where
  | rpcRequestBalance (rpcPassword : String)
  | rpcRequestAddress (rpcPassword : String)
  | rpcRequestStatus (rpcPassword : String)
  | rpcSendTransaction (address : String) (amount : Float64) (paymentID : String)
      (fee : Float64) (mixin : Int) (rpcPassword : String)
  | rpcSaveWallet (rpcPassword : String)
  | createFile (path : String)
  | openFileAppend (path : String)
  | start (cmd : Cmd)
  | signalTerm
  | wait
  | kill
  | sleep (milliseconds : Nat)
  | fatal
  deriving DecidableEq

/-- The answers of the RPC client package `turtlecoinwalletdrpcgo` (an external collaborator):
each function returns its Go result tuple, the last component being the error (`none` for
`nil`). -/
structure RPC where
  RequestBalance : String → Float64 × Float64 × Float64 × Option String
  RequestAddress : String → String × Option String
  RequestStatus : String → Int × Int × Int × Option String
  SendTransaction : String → Float64 → String → Float64 → Int → String → String × Option String

/-- Result of an operation: the package state afterwards, the returned Go values, and the
effects performed. -/
structure Outcome (α : Type) where
  state : State
  ret : α
  effects : List Effect
  deriving DecidableEq

/-! ## `Setup` and the RPC-backed operations -/

/-- Go `Setup`. -/
def Setup (s : State) (platform : String) : State :=
  let s := { s with isPlatformDarwin := false, isPlatformLinux := false,
                    isPlatformWindows := false }
  if platform = "darwin" then { s with isPlatformDarwin := true }
  else if platform = "windows" then { s with isPlatformWindows := true }
  else if platform = "linux" then { s with isPlatformLinux := true }
  else { s with isPlatformLinux := true }

/-- Go `RequestBalance`. -/
def RequestBalance (rpc : RPC) (s : State) :
    Outcome (Float64 × Float64 × Float64 × Option String) :=
  let (availableBalance, lockedBalance, totalBalance, err) := rpc.RequestBalance s.rpcPassword
  let s' := match err with
    | some _ => s
    | none => { s with WalletAvailableBalance := availableBalance }
  ⟨s', (availableBalance, lockedBalance, totalBalance, err),
    [.rpcRequestBalance s.rpcPassword]⟩

/-- Go `RequestAddress`. -/
def RequestAddress (rpc : RPC) (s : State) : Outcome (String × Option String) :=
  let (address, err) := rpc.RequestAddress s.rpcPassword
  let s' := match err with
    | some _ => s
    | none => { s with WalletAddress := address }
  ⟨s', (address, err), [.rpcRequestAddress s.rpcPassword]⟩

/-- Go `SendTransaction`; the result is `(transactionHash, err)`. -/
def SendTransaction (rpc : RPC) (s : State)
    (transferAddress transferAmountString transferPaymentID : String) :
    Outcome (String × Option String) :=
  if !HasPrefix transferAddress "TRTL" || len transferAddress ≠ 99 then
    ⟨s, ("", some "address is invalid"), []⟩
  else if transferAddress = s.WalletAddress then
    ⟨s, ("", some "sending to yourself is not supported"), []⟩
  else
    let transferFee : Float64 := .ofInt 1
    let transferMixin : Int := 4
    match ParseFloat transferAmountString with
    | none => ⟨s, ("", some "amount is invalid"), []⟩
    | some transferAmount =>
      if Float64.le transferAmount (.ofInt 0) then
        ⟨s, ("", some "amount of TRTL to be sent should be greater than 0"), []⟩
      else if Float64.gt (Float64.add transferAmount transferFee) s.WalletAvailableBalance then
        ⟨s, ("", some "your available balance is insufficient"), []⟩
      else if Float64.gt transferAmount (.ofInt 5000000) then
        ⟨s, ("", some ("for sending more than 5,000,000 TRTL to one address, you should " ++
          "split in multiple transfers of smaller amounts")), []⟩
      else
        ⟨s, rpc.SendTransaction transferAddress transferAmount transferPaymentID transferFee
              transferMixin s.rpcPassword,
          [.rpcSendTransaction transferAddress transferAmount transferPaymentID transferFee
              transferMixin s.rpcPassword]⟩

/-- Go `strconv.Itoa`. -/
def Itoa (n : Int) : String := toString n

/-- Go `RequestConnectionInfo`; the result is
`(syncing, blockCountString, knownBlockCountString, peerCountString, err)`. Integer arithmetic
wraps around as Go's 64-bit `int` does. -/
def RequestConnectionInfo (rpc : RPC) (s : State) :
    Outcome (String × String × String × String × Option String) :=
  let (blockCount, knownBlockCount, peerCount, err) := rpc.RequestStatus s.rpcPassword
  match err with
  | some e => ⟨s, ("", "", "", "", some e), [.rpcRequestStatus s.rpcPassword]⟩
  | none =>
    let stringWait := " (No transfers allowed until synced)"
    let (synced, syncing) : Bool × String :=
      if knownBlockCount = 0 then
        (false, "Getting block count..." ++ stringWait)
      else if blockCount < wrapInt (knownBlockCount - 1)
          ∨ blockCount > wrapInt (knownBlockCount + 10) then
        (false, "Wallet syncing..." ++ stringWait)
      else
        (true, "Wallet synced")
    ⟨{ s with WalletdSynced := synced },
      (syncing, Itoa blockCount, Itoa knownBlockCount, Itoa peerCount, none),
      [.rpcRequestStatus s.rpcPassword]⟩

/-! ## Process discovery -/

/-- An entry of the operating system's process table (`ps.Process` of `go-ps`). -/
structure Process where
  Pid : Int
  Executable : String
  deriving DecidableEq

/-- Go `findProcess` over the process table `ps`; the result is `(pid, pname, err)`. -/
def findProcess (ps : List Process) (key : String) : Int × String × Option String :=
  match ps.find? (fun p => p.Executable = key) with
  | some p => (p.Pid, p.Executable, none)
  | none => (0, "", some "not found")

/-- Go `isWalletdRunning`, the process table being read once. -/
def isWalletdRunning (ps : List Process) (s : State) : Bool :=
  if (findProcess ps walletdCommandName).2.2 = none then true
  else if (findProcess ps turtlecoindCommandName).2.2 = none then true
  else if s.isPlatformWindows then
    if (findProcess ps (walletdCommandName ++ ".exe")).2.2 = none then true
    else if (findProcess ps (turtlecoindCommandName ++ ".exe")).2.2 = none then true
    else false
  else false

/-- The message built in `StartWalletd` and in `CreateWallet` when a daemon is already
running. -/
def collisionMessage (s : State) : String :=
  let errorMessage :=
    "Walletd or TurtleCoind is already running in the background.\nPlease close it via "
  let errorMessage :=
    if s.isPlatformWindows then errorMessage ++ "the task manager"
    else if s.isPlatformDarwin then errorMessage ++ "the activity monitor"
    else if s.isPlatformLinux then errorMessage ++ "a system monitor app"
    else errorMessage
  errorMessage ++ "."

/-! ## The RPC credential -/

def letterBytes : String := "abcdefghijklmnopqrstuvwxyzABCDEFGHIJKLMNOPQRSTUVWXYZ"

def letterIdxBits : Nat := 6

def letterIdxMask : Nat := 1 <<< letterIdxBits - 1

def letterIdxMax : Nat := 63 / letterIdxBits

/-- The loop of `randStringBytesMaskImprSrc`. `src k` is the `k`-th value delivered by
`src.Int63()`, `todo` is `i + 1`, `next` counts the values drawn so far and `acc` holds
`b[i+1:]`. One unit of `fuel` is spent per iteration; `none` means the fuel ran out. -/
def randLoop (src : Nat → Nat) : Nat → Nat → Nat → Nat → Nat → List Char → Option (List Char)
  | _, 0, _, _, _, acc => some acc
  | 0, _ + 1, _, _, _, _ => none
  | fuel + 1, i + 1, cache, remain, next, acc =>
    let cache' := if remain = 0 then src next % 2 ^ 63 else cache
    let remain' := if remain = 0 then letterIdxMax else remain
    let next' := if remain = 0 then next + 1 else next
    let idx := cache' &&& letterIdxMask
    if idx < len letterBytes then
      randLoop src fuel i (cache' >>> letterIdxBits) (remain' - 1) next'
        (letterBytes.data.getD idx 'a' :: acc)
    else
      randLoop src fuel (i + 1) (cache' >>> letterIdxBits) (remain' - 1) next' acc

/-- Go `randStringBytesMaskImprSrc(n)` for `n ≥ 0`, reading the random source `src`; `none`
when the loop has not ended after `fuel` iterations. -/
def randStringBytesMaskImprSrc (src : Nat → Nat) (fuel n : Nat) : Option String :=
  (randLoop src fuel n (src 0 % 2 ^ 63) letterIdxMax 1 []).map String.mk

/-! ## Supervising the daemon -/

/-- Everything the environment decides during one call of `StartWalletd`, `CreateWallet` or
`GracefullyQuitWalletd`. -/
structure World where
  /-- the program is built for Windows (`filepath` then also accepts `\` as a separator) -/
  windows : Bool
  /-- the process table returned by `ps.Processes()` -/
  processes : List Process
  /-- Go `filepath.Base` -/
  Base : String → String
  /-- Go `filepath.Clean` -/
  Clean : String → String
  /-- Go `filepath.Dir` -/
  Dir : String → String
  /-- the result of `filepath.Abs(filepath.Dir(os.Args[0]))`, `none` on error -/
  currentDirectory : Option String
  /-- the home directory of `user.Current()`, `none` on error -/
  homeDir : Option String
  /-- whether `os.Create` of the current-session log succeeds -/
  createOk : Bool
  /-- whether `os.OpenFile` of the all-sessions log succeeds -/
  openOk : Bool
  /-- the error of `cmdWalletd.Start()` -/
  startErr : Option String
  /-- the values delivered by the random source -/
  randSrc : Nat → Nat
  /-- bound on the iterations of the credential loop -/
  randFuel : Nat
  /-- the content of the current-session log when it is read -/
  log : String
  /-- for the `k`-th race between the timer and the exit notification: the daemon exits
  before the timer fires -/
  exitedInTime : Nat → Bool
  /-- the answers of the RPC client -/
  rpc : RPC

/-- How a call ends. -/
inductive Ret where
  /-- the function returns `err` -/
  | returned (err : Option String)
  /-- the program was ended by `log.Fatal` -/
  | exit
  /-- the credential loop did not end -/
  | hang
  deriving DecidableEq

/-- The lines delivered by `reader.ReadString('\n')` until it reports an error: every line
ends with its newline, and an unterminated last line is dropped with the end of file. -/
def readLinesL : List Char → List Char → List String
  | [], _ => []
  | c :: cs, cur =>
    if c = '\n' then String.mk (c :: cur).reverse :: readLinesL cs []
    else readLinesL cs (c :: cur)

/-- The lines read from the current-session log; none at all when the file could not be
created (reading the nil file fails at once). -/
def readLog (w : World) : List String :=
  if w.createOk then readLinesL w.log.data [] else []

/-- Go `killWalletd`; `exited` tells who wins the race on the platforms with one. -/
def killWalletd (s : State) (exited : Bool) : List Effect :=
  match s.cmdWalletd with
  | none => []
  | some _ =>
    if s.isPlatformWindows then [.kill]
    else if exited then [.wait] else [.wait, .kill]

/-- Go `GracefullyQuitWalletd`. -/
def GracefullyQuitWalletd (w : World) (s : State) : Outcome Unit :=
  let effects : List Effect :=
    if s.WalletdOpenAndRunning ∧ s.cmdWalletd ≠ none then
      if s.isPlatformWindows then [.rpcSaveWallet s.rpcPassword, .sleep 3000, .kill]
      else if w.exitedInTime 0 then [.signalTerm, .wait] else [.signalTerm, .wait, .kill]
    else []
  ⟨{ s with WalletAvailableBalance := .ofInt 0, WalletAddress := "", WalletFilename := "",
            cmdWalletd := none, WalletdOpenAndRunning := false }, (), effects⟩

/-- The error lines collected by the loop of `StartWalletd`. -/
def startErrors : List String → List String
  | [] => []
  | line :: rest =>
    if Contains line " ERROR  " then splitLast line " ERROR  " :: startErrors rest
    else startErrors rest

/-- Go `for _, line := range list { errorMessage = errorMessage + line }`. -/
def appendAll (errorMessage : String) (list : List String) : String :=
  list.foldl (fun m line => m ++ line) errorMessage

/-- The paths computed by `StartWalletd`, as `(pathToWalletd, pathToLogWalletdCurrentSession,
pathToLogWalletdAllSessions, pathToWallet)`; `none` when `log.Fatal` is reached because the
current directory or the home directory cannot be found. `s.WalletFilename` is already set. -/
def startPaths (w : World) (s : State) (pathToWallet : String) :
    Option (String × String × String × String) :=
  if s.isPlatformDarwin then
    match w.currentDirectory, w.homeDir with
    | some currentDirectory, some pathToHomeDir =>
      let pathToAppContents := w.Dir currentDirectory
      let pathToAppLibDir := pathToHomeDir ++ "/Library/Application Support/TurtleCoin-Nest"
      some (pathToAppContents ++ "/" ++ walletdCommandName,
        pathToAppLibDir ++ "/" ++ logWalletdCurrentSessionFilename,
        pathToAppLibDir ++ "/" ++ logWalletdAllSessionsFilename,
        if pathToWallet = s.WalletFilename then pathToHomeDir ++ "/" ++ pathToWallet
        else pathToWallet)
    | _, _ => none
  else
    some ("./" ++ walletdCommandName, logWalletdCurrentSessionFilename,
      logWalletdAllSessionsFilename, pathToWallet)

/-- The text that opens the error message of `StartWalletd`. -/
def startErrorPrefix : String :=
  "Error opening the daemon walletd. Could be a problem with your wallet file, your " ++
    "password or walletd. More info in the file " ++ logWalletdAllSessionsFilename ++ "\n"

/-- The end of `StartWalletd`, from the reading of the current-session log on: `s` is the
package state and `done` the effects performed when the boot delay has elapsed. -/
def startVerdict (w : World) (s : State) (done : List Effect) : Outcome Ret :=
  let listWalletdErrors := startErrors (readLog w)
  let errorMessage := appendAll startErrorPrefix listWalletdErrors
  let e5 := done ++ [.rpcRequestStatus s.rpcPassword]
  match (w.rpc.RequestStatus s.rpcPassword).2.2.2 with
  | some _ => ⟨s, .returned (some errorMessage), e5 ++ killWalletd s (w.exitedInTime 0)⟩
  | none => ⟨{ s with WalletdOpenAndRunning := true }, .returned none, e5⟩

/-- Go `StartWalletd`. -/
def StartWalletd (w : World) (s : State) (walletPath walletPassword : String) : Outcome Ret :=
  let fileExtension := Ext w.windows walletPath
  if fileExtension ≠ ".wallet" then
    ⟨s, .returned (some "filename should end with .wallet"), []⟩
  else if isWalletdRunning w.processes s then
    ⟨s, .returned (some (collisionMessage s)), []⟩
  else
    let s := { s with WalletFilename := w.Base walletPath }
    let pathToWallet := w.Clean walletPath
    let pathToWallet :=
      if s.isPlatformWindows then Replace1 pathToWallet "file:\\" ""
      else Replace1 pathToWallet "file:" ""
    match startPaths w s pathToWallet with
    | none => ⟨s, .exit, [.fatal]⟩
    | some (pathToWalletd, pathToLogWalletdCurrentSession, pathToLogWalletdAllSessions,
        pathToWallet) =>
      let e1 := [Effect.createFile pathToLogWalletdCurrentSession]
      match randStringBytesMaskImprSrc w.randSrc w.randFuel 20 with
      | none => ⟨s, .hang, e1⟩
      | some rpcPassword =>
        let cmd : Cmd := ⟨pathToWalletd, ["-w", pathToWallet, "-p", walletPassword, "-l",
          pathToLogWalletdCurrentSession, "--local", "--rpc-password", rpcPassword]⟩
        let s := { s with rpcPassword := rpcPassword, cmdWalletd := some cmd }
        let e2 := e1 ++ [.openFileAppend pathToLogWalletdAllSessions]
        if !w.openOk then ⟨s, .exit, e2 ++ [.fatal]⟩
        else
          let e3 := e2 ++ [.start cmd]
          match w.startErr with
          | some err => ⟨s, .returned (some err), e3⟩
          | none => startVerdict w s (e3 ++ [.sleep 5000])

/-- The paths computed by `CreateWallet`, as `(pathToWalletd, pathToLogWalletdCurrentSession,
pathToLogWalletdAllSessions, pathToWallet)`; `none` when `log.Fatal` is reached. -/
def createPaths (w : World) (s : State) (walletFilename : String) :
    Option (String × String × String × String) :=
  if s.isPlatformDarwin then
    match w.currentDirectory, w.homeDir with
    | some currentDirectory, some pathToHomeDir =>
      let pathToAppContents := w.Dir currentDirectory
      let pathToAppLibDir := pathToHomeDir ++ "/Library/Application Support/TurtleCoin-Nest"
      some (pathToAppContents ++ "/" ++ walletdCommandName,
        pathToAppLibDir ++ "/" ++ logWalletdCurrentSessionFilename,
        pathToAppLibDir ++ "/" ++ logWalletdAllSessionsFilename,
        pathToHomeDir ++ "/" ++ walletFilename)
    | _, _ => none
  else
    some ("./" ++ walletdCommandName, logWalletdCurrentSessionFilename,
      logWalletdAllSessionsFilename, walletFilename)

/-- The command line built by `CreateWallet`: generation, or import from the two keys. -/
def createCmd (pathToWalletd pathToWallet walletPassword privateViewKey privateSpendKey
    pathToLogWalletdCurrentSession : String) : Cmd :=
  if privateViewKey = "" ∧ privateSpendKey = "" then
    ⟨pathToWalletd, ["-w", pathToWallet, "-p", walletPassword, "-l",
      pathToLogWalletdCurrentSession, "-g"]⟩
  else
    ⟨pathToWalletd, ["-w", pathToWallet, "-p", walletPassword, "--view-key",
      privateViewKey, "--spend-key", privateSpendKey, "-l",
      pathToLogWalletdCurrentSession, "-g"]⟩

/-- Is the line a success marker of `CreateWallet`? -/
def isSuccessLine (line : String) : Bool :=
  Contains line "New wallet is generated. Address:" || Contains line "New wallet added"

/-- The error text `CreateWallet` collects from a line, if any: the first of the two markers
that occurs in the line decides. -/
def createError (line : String) : Option String :=
  if Contains line " ERROR  " then some (splitLast line " ERROR  ")
  else if Contains line "error: " then some (splitLast line "error: ")
  else none

/-- The reading loop of `CreateWallet` over the lines still to come: returns
`successCreatingWallet`, `listWalletdErrors`, the number of calls of `killWalletd` made so
far, and the effects performed. -/
def createLoop (s : State) (exited : Nat → Bool) :
    List String → List String → Nat → List Effect → Bool × List String × Nat × List Effect
  | [], errs, k, effs => (false, errs, k, effs)
  | line :: rest, errs, k, effs =>
    let errs :=
      match createError line with
      | some e => errs ++ [e]
      | none => errs
    if isSuccessLine line then (true, errs, k, effs)
    else
      createLoop s exited rest errs (k + 1) (effs ++ killWalletd s (exited k) ++ [.sleep 1000])

/-- The text that opens the error message of `CreateWallet`. -/
def createErrorPrefix : String :=
  "Error opening walletd and/or creating a wallet. More info in the file " ++
    logWalletdAllSessionsFilename ++ "\n"

/-- The end of `CreateWallet`, from the reading of the current-session log on: `s` is the
package state and `done` the effects performed when the boot delay has elapsed. -/
def createVerdict (w : World) (s : State) (done : List Effect) : Outcome Ret :=
  let (successCreatingWallet, listWalletdErrors, k, e5) :=
    createLoop s w.exitedInTime (readLog w) [] 0 done
  if !successCreatingWallet then
    ⟨s, .returned (some (appendAll createErrorPrefix listWalletdErrors)),
      e5 ++ killWalletd s (w.exitedInTime k)⟩
  else ⟨s, .returned none, e5⟩

/-- Go `CreateWallet`. -/
def CreateWallet (w : World) (s : State)
    (walletFilename walletPassword privateViewKey privateSpendKey : String) : Outcome Ret :=
  if s.WalletdOpenAndRunning then
    ⟨s, .returned (some ("walletd is already running. It should be stopped before being " ++
      "able to generate a new wallet")), []⟩
  else if Contains walletFilename "/" || Contains walletFilename " "
      || Contains walletFilename ":" then
    ⟨s, .returned (some "you should avoid spaces and most special characters in the filename"),
      []⟩
  else if isWalletdRunning w.processes s then
    ⟨s, .returned (some (collisionMessage s)), []⟩
  else
    match createPaths w s walletFilename with
    | none => ⟨s, .exit, [.fatal]⟩
    | some (pathToWalletd, pathToLogWalletdCurrentSession, pathToLogWalletdAllSessions,
        pathToWallet) =>
      let e1 := [Effect.createFile pathToLogWalletdCurrentSession]
      let cmd := createCmd pathToWalletd pathToWallet walletPassword privateViewKey
        privateSpendKey pathToLogWalletdCurrentSession
      let s := { s with cmdWalletd := some cmd }
      let e2 := e1 ++ [.openFileAppend pathToLogWalletdAllSessions]
      if !w.openOk then ⟨s, .exit, e2 ++ [.fatal]⟩
      else
        let e3 := e2 ++ [.start cmd]
        match w.startErr with
        | some err => ⟨s, .returned (some err), e3⟩
        | none => createVerdict w s (e3 ++ [.sleep 5000])

/-! ## Sample data used to evaluate the operations -/

/-- A well-formed destination address: the prefix `TRTL` followed by 95 letters. -/
def sampleAddress : String := "TRTL" ++ String.mk (List.replicate 95 'a')

/-- An RPC peer that reports heights `(blockCount, knownBlockCount)`, eight peers, and
accepts every transfer with the hash `"txhash"`. -/
def sampleRPC (blockCount knownBlockCount : Int) : RPC where
  RequestBalance := fun _ => (.ofInt 100, .ofInt 0, .ofInt 100, none)
  RequestAddress := fun _ => (sampleAddress, none)
  RequestStatus := fun _ => (blockCount, knownBlockCount, 8, none)
  SendTransaction := fun _ _ _ _ _ _ => ("txhash", none)

/-- A session whose wallet holds `balance` available coins; its own address differs from
`sampleAddress`. -/
def sampleSession (balance : Float64) : State :=
  { State.init with
      WalletAvailableBalance := balance
      WalletAddress := "TRTL" ++ String.mk (List.replicate 95 'b')
      WalletdOpenAndRunning := true }

/-- A Linux host on which no daemon is running, the log files can be opened, the daemon
starts, writes `log` and answers the status call with heights (100, 100). `Base` and `Clean`
are `filepath.Base` and `filepath.Clean` as they act on the path `"wallets/my.wallet"`. -/
def sampleWorld (log : String) : World where
  windows := false
  processes := [⟨1, "init"⟩, ⟨812, "bash"⟩]
  Base := fun _ => "my.wallet"
  Clean := fun p => p
  Dir := fun p => p
  currentDirectory := some "/opt/nest"
  homeDir := some "/home/user"
  createOk := true
  openOk := true
  startErr := none
  randSrc := fun k => 7 * k + 1234567
  randFuel := 1000
  log := log
  exitedInTime := fun _ => true
  rpc := sampleRPC 100 100

/-- The world of `sampleWorld` in which the status call fails. -/
def sampleWorldNoRPC (log : String) : World :=
  { sampleWorld log with
      rpc := { sampleRPC 100 100 with RequestStatus := fun _ => (0, 0, 0, some "refused") } }

/-- The session after a successful `StartWalletd` from the initial state. -/
def startedSession : State :=
  (StartWalletd (sampleWorld "") State.init "wallets/my.wallet" "secret").state

/-- The started session after `RequestConnectionInfo` found the wallet synced. -/
def syncedSession : State :=
  (RequestConnectionInfo (sampleRPC 100 100) startedSession).state

/-- The synced session after `GracefullyQuitWalletd`. -/
def stoppedSession : State :=
  (GracefullyQuitWalletd (sampleWorld "") syncedSession).state

/-- The session after a `StartWalletd` from the initial state whose status call failed. -/
def failedStartSession : State :=
  (StartWalletd (sampleWorldNoRPC "") State.init "wallets/my.wallet" "secret").state

/-- The states reachable from the initial one through `Setup`, `StartWalletd`, `CreateWallet`,
`GracefullyQuitWalletd` and the RPC-backed queries, whatever the environment answers. -/
inductive Reachable : State → Prop where
  | init : Reachable State.init
  | setup (s : State) (platform : String) : Reachable s → Reachable (Setup s platform)
  | startWalletd (w : World) (s : State) (walletPath walletPassword : String) :
      Reachable s → Reachable (StartWalletd w s walletPath walletPassword).state
  | createWallet (w : World) (s : State) (f p v k : String) :
      Reachable s → Reachable (CreateWallet w s f p v k).state
  | gracefullyQuitWalletd (w : World) (s : State) :
      Reachable s → Reachable (GracefullyQuitWalletd w s).state
  | requestBalance (rpc : RPC) (s : State) : Reachable s → Reachable (RequestBalance rpc s).state
  | requestAddress (rpc : RPC) (s : State) : Reachable s → Reachable (RequestAddress rpc s).state
  | requestConnectionInfo (rpc : RPC) (s : State) :
      Reachable s → Reachable (RequestConnectionInfo rpc s).state
  | sendTransaction (rpc : RPC) (s : State) (a m p : String) :
      Reachable s → Reachable (SendTransaction rpc s a m p).state

/-- The executable names that count as a running daemon: the two daemon names and, when the
Windows platform is selected, their `.exe` variants. -/
def Monitored (s : State) (name : String) : Prop :=
  name = walletdCommandName ∨ name = turtlecoindCommandName ∨
  (s.isPlatformWindows = true ∧
    (name = walletdCommandName ++ ".exe" ∨ name = turtlecoindCommandName ++ ".exe"))

/-- A process table in which a foreign daemon is visible. -/
def busyWorld : World :=
  { sampleWorld "" with processes := [⟨1, "init"⟩, ⟨977, "TurtleCoind"⟩] }

/-- The conditions under which `StartWalletd` gets as far as a started daemon: the path has
the wallet extension, no daemon is visible, the directories are found on macOS, the credential
loop ends with `rpcPassword`, the all-sessions log opens and `cmdWalletd.Start()` succeeds. -/
def StartSpawns (w : World) (s : State) (walletPath rpcPassword : String) : Prop :=
  Ext w.windows walletPath = ".wallet" ∧ isWalletdRunning w.processes s = false ∧
  (s.isPlatformDarwin = true → w.currentDirectory.isSome = true ∧ w.homeDir.isSome = true) ∧
  randStringBytesMaskImprSrc w.randSrc w.randFuel 20 = some rpcPassword ∧
  w.openOk = true ∧ w.startErr = none

instance (w : World) (s : State) (walletPath rpcPassword : String) :
    Decidable (StartSpawns w s walletPath rpcPassword) := by
  unfold StartSpawns; infer_instance

/-- The conditions under which `CreateWallet` gets as far as a started daemon: the session is
idle, the filename is accepted, no daemon is visible, the directories are found on macOS, the
all-sessions log opens and `cmdWalletd.Start()` succeeds. -/
def CreateSpawns (w : World) (s : State) (walletFilename : String) : Prop :=
  s.WalletdOpenAndRunning = false ∧
  (Contains walletFilename "/" || Contains walletFilename " "
    || Contains walletFilename ":") = false ∧
  isWalletdRunning w.processes s = false ∧
  (s.isPlatformDarwin = true → w.currentDirectory.isSome = true ∧ w.homeDir.isSome = true) ∧
  w.openOk = true ∧ w.startErr = none

instance (w : World) (s : State) (f : String) : Decidable (CreateSpawns w s f) := by
  unfold CreateSpawns; infer_instance

/-- A current-session log with two error lines among three complete lines. -/
def failureLog : String :=
  "2018-May-01 10:00:01 INFO    Loading container...\n" ++
  "2018-May-01 10:00:02 ERROR  The password is wrong\n" ++
  "2018-May-01 10:00:02 ERROR  Failed to load ERROR  container\n"

/-- A current-session log in which an error line comes before the success marker. -/
def errorThenSuccessLog : String :=
  "2018-May-01 10:00:02 ERROR  Failed to save wallet cache\n" ++
  "2018-May-01 10:00:03 INFO    New wallet is generated. Address: TRTLxyz\n"

/-- A current-session log that ends with the success marker of a generated wallet. -/
def successLog : String :=
  "2018-May-01 10:00:01 INFO    Generating new wallet...\n" ++
  "2018-May-01 10:00:03 INFO    New wallet is generated. Address: TRTLxyz\n"

/-- A Windows host (the program is built for Windows and `Setup "windows"` was called) on
which wallet generation succeeds. -/
def windowsWorld : World := { sampleWorld successLog with windows := true }

/-- The `j`-th letter index held in a value `v` of the random source: its `j`-th group of
`letterIdxBits` bits, counted from the low end. -/
def letterIdx (v j : Nat) : Nat := (v >>> (letterIdxBits * j)) &&& letterIdxMask

/-- A random source that delivers the same value at every draw. -/
def constantSource (v : Nat) : Nat → Nat := fun _ => v

set_option maxRecDepth 8000

/-! ## Properties of `SendTransaction` -/

/-- The comparison `x <= y` fails exactly when an operand is NaN or `y < x`. -/
theorem Float64.le_eq_false_iff (x y : Float64) :
    Float64.le x y = false ↔ x = .nan ∨ y = .nan ∨ Float64.lt y x = true := by
  cases x <;> cases y <;> simp [Float64.le, Float64.lt, and_comm]

/-- Away from NaN, `SendTransaction` applies its five checks in the stated order and fails with
the error of the first one that does not hold; when all hold it returns the RPC answer. -/
theorem SendTransaction_checks_in_order (rpc : RPC) (s : State) (addr amt pid : String) :
    let r := (SendTransaction rpc s addr amt pid).ret
    let valid := HasPrefix addr "TRTL" = true ∧ len addr = 99
    (¬ valid → r = ("", some "address is invalid")) ∧
    (valid → addr = s.WalletAddress → r = ("", some "sending to yourself is not supported")) ∧
    (valid → addr ≠ s.WalletAddress → ParseFloat amt = none →
      r = ("", some "amount is invalid")) ∧
    (∀ a, valid → addr ≠ s.WalletAddress → ParseFloat amt = some a → a ≠ .nan →
      (Float64.lt (.ofInt 0) a = false →
        r = ("", some "amount of TRTL to be sent should be greater than 0")) ∧
      (Float64.lt (.ofInt 0) a = true →
        Float64.gt (Float64.add a (.ofInt 1)) s.WalletAvailableBalance = true →
        r = ("", some "your available balance is insufficient")) ∧
      (Float64.lt (.ofInt 0) a = true →
        Float64.gt (Float64.add a (.ofInt 1)) s.WalletAvailableBalance = false →
        Float64.gt a (.ofInt 5000000) = true →
        r = ("", some ("for sending more than 5,000,000 TRTL to one address, you should " ++
          "split in multiple transfers of smaller amounts"))) ∧
      (Float64.lt (.ofInt 0) a = true →
        Float64.gt (Float64.add a (.ofInt 1)) s.WalletAvailableBalance = false →
        Float64.gt a (.ofInt 5000000) = false →
        r = rpc.SendTransaction addr a pid (.ofInt 1) 4 s.rpcPassword)) := by
  intro r valid
  have hle : ∀ a : Float64, a ≠ .nan →
      (Float64.le a (.ofInt 0) = true ↔ Float64.lt (.ofInt 0) a = false) := by
    intro a ha
    have h := Float64.le_eq_false_iff a (.ofInt 0)
    simp only [ha, false_or, Float64.ofInt, reduceCtorEq] at h ⊢
    cases h1 : a.le (.fin 0 0) <;> cases h2 : (Float64.fin 0 0).lt a <;> simp_all
  refine ⟨?_, ?_, ?_, ?_⟩
  · intro hv
    have : (!HasPrefix addr "TRTL" || decide (len addr ≠ 99)) = true := by
      by_cases h1 : HasPrefix addr "TRTL" = true
      · have h2 : len addr ≠ 99 := fun h => hv ⟨h1, h⟩
        simp [h2]
      · simp [h1]
    simp only [r, SendTransaction, this, if_true]
  · rintro ⟨h1, h2⟩ h3
    simp [r, SendTransaction, h1, h2, ← h3]
  · rintro ⟨h1, h2⟩ h3 h4
    simp [r, SendTransaction, h1, h2, h3, h4]
  · rintro a ⟨h1, h2⟩ h3 h4 ha
    refine ⟨?_, ?_, ?_, ?_⟩
    · intro h5
      have := (hle a ha).2 h5
      simp [r, SendTransaction, h1, h2, h3, h4, this]
    · intro h5 h6
      have : Float64.le a (.ofInt 0) = false := by
        rw [← Bool.not_eq_true, hle a ha]; simp [h5]
      simp [r, SendTransaction, h1, h2, h3, h4, this, h6]
    · intro h5 h6 h7
      have : Float64.le a (.ofInt 0) = false := by
        rw [← Bool.not_eq_true, hle a ha]; simp [h5]
      simp [r, SendTransaction, h1, h2, h3, h4, this, h6, h7]
    · intro h5 h6 h7
      have : Float64.le a (.ofInt 0) = false := by
        rw [← Bool.not_eq_true, hle a ha]; simp [h5]
      simp [r, SendTransaction, h1, h2, h3, h4, this, h6, h7]

/-- The parser on sample inputs: decimal and hexadecimal numbers, digit separators, the
special values, and some syntax and range errors. -/
theorem ParseFloat_samples :
    ParseFloat "10" = some (.fin (10 * 2 ^ 49) (-49)) ∧
    ParseFloat "1_0" = some (.fin (10 * 2 ^ 49) (-49)) ∧
    ParseFloat "0x1p4" = some (.fin (2 ^ 52) (-48)) ∧
    ParseFloat "16" = some (.fin (2 ^ 52) (-48)) ∧
    ParseFloat "0X_1_0P-2" = ParseFloat "4" ∧
    ParseFloat "1e1_0" = ParseFloat "10000000000" ∧
    ParseFloat "NaN" = some .nan ∧ ParseFloat "-Infinity" = some (.inf true) ∧
    ParseFloat "" = none ∧ ParseFloat "five" = none ∧ ParseFloat "+nan" = none ∧
    ParseFloat "1_" = none ∧ ParseFloat "_1" = none ∧ ParseFloat "1__0" = none ∧
    ParseFloat "0x10" = none ∧ ParseFloat "1e" = none ∧ ParseFloat " 1" = none ∧
    ParseFloat "0x1p1024" = none := by
  decide

/-- The rejections listed in the specification: a wrong prefix, the wallet's own address, the
amounts `"0"` and `"-5"`, 4900000 against a balance of 100, and 6000000 (against a balance of
ten millions). -/
theorem SendTransaction_rejections :
    (SendTransaction (sampleRPC 100 100) (sampleSession (.ofInt 100)) "BADPREFIX..." "1" "").ret
      = ("", some "address is invalid") ∧
    (SendTransaction (sampleRPC 100 100) (sampleSession (.ofInt 100))
      (sampleSession (.ofInt 100)).WalletAddress "1" "").ret
      = ("", some "sending to yourself is not supported") ∧
    (SendTransaction (sampleRPC 100 100) (sampleSession (.ofInt 100)) sampleAddress "0" "").ret
      = ("", some "amount of TRTL to be sent should be greater than 0") ∧
    (SendTransaction (sampleRPC 100 100) (sampleSession (.ofInt 100)) sampleAddress "-5" "").ret
      = ("", some "amount of TRTL to be sent should be greater than 0") ∧
    (SendTransaction (sampleRPC 100 100) (sampleSession (.ofInt 100)) sampleAddress "five" "").ret
      = ("", some "amount is invalid") ∧
    (SendTransaction (sampleRPC 100 100) (sampleSession (.ofInt 100)) sampleAddress
      "4900000" "").ret = ("", some "your available balance is insufficient") ∧
    (SendTransaction (sampleRPC 100 100) (sampleSession (.ofInt 10000000)) sampleAddress
      "6000000" "").ret
      = ("", some ("for sending more than 5,000,000 TRTL to one address, you should " ++
          "split in multiple transfers of smaller amounts")) ∧
    (SendTransaction (sampleRPC 100 100) (sampleSession (.ofInt 100)) sampleAddress
      "12.5" "").ret = ("txhash", none) := by
  decide

/-- Whenever `SendTransaction` issues the RPC transfer, it is the only effect, the address is
well formed and not the wallet's own, and the amount sent is the parsed amount, on which none
of the three amount checks fired; when no transfer is issued an error is returned. -/
theorem SendTransaction_rpc_guard (rpc : RPC) (s : State) (addr amt pid : String) :
    let o := SendTransaction rpc s addr amt pid
    (o.effects = [] ∧ o.ret.2 ≠ none) ∨
    (∃ a, o.effects = [.rpcSendTransaction addr a pid (.ofInt 1) 4 s.rpcPassword] ∧
      HasPrefix addr "TRTL" = true ∧ len addr = 99 ∧ addr ≠ s.WalletAddress ∧
      ParseFloat amt = some a ∧ Float64.le a (.ofInt 0) = false ∧
      Float64.gt (Float64.add a (.ofInt 1)) s.WalletAvailableBalance = false ∧
      Float64.gt a (.ofInt 5000000) = false) := by
  intro o
  by_cases h1 : HasPrefix addr "TRTL" = true
  · by_cases h2 : len addr = 99
    · by_cases h3 : addr = s.WalletAddress
      · left; simp [o, SendTransaction, h1, h2, ← h3]
      · cases h4 : ParseFloat amt with
        | none => left; simp [o, SendTransaction, h1, h2, h3, h4]
        | some a =>
          cases h5 : Float64.le a (.ofInt 0)
          · cases h6 : Float64.gt (Float64.add a (.ofInt 1)) s.WalletAvailableBalance
            · cases h7 : Float64.gt a (.ofInt 5000000)
              · right
                exact ⟨a, by simp [o, SendTransaction, h1, h2, h3, h4, h5, h6, h7]⟩
              · left; simp [o, SendTransaction, h1, h2, h3, h4, h5, h6, h7]
            · left; simp [o, SendTransaction, h1, h2, h3, h4, h5, h6]
          · left; simp [o, SendTransaction, h1, h2, h3, h4, h5]
    · left; simp [o, SendTransaction, h1, h2]
  · left; simp [o, SendTransaction, h1]

/-- C1 (the code departs from it): the amount string `"NaN"` is accepted by the parser as the
value NaN, which is not greater than 0, and yet no `InvalidAmount` error comes back: with a
well-formed foreign address and a balance of 100 every check lets it through and the call
returns the answer of the RPC transfer, without error. -/
theorem SendTransaction_NaN_amount_not_rejected :
    ParseFloat "NaN" = some .nan ∧ Float64.lt (.ofInt 0) .nan = false ∧
    (SendTransaction (sampleRPC 100 100) (sampleSession (.ofInt 100)) sampleAddress
      "NaN" "").ret = ("txhash", none) := by
  decide

/-- C2 (the code departs from it): with the amount string `"nan"` and an available balance
of 0 the RPC transfer is issued, carrying the amount NaN, for which neither `0 < a`, nor
`a <= 5000000`, nor `a + fee <= balance` holds. -/
theorem SendTransaction_issues_transfer_of_NaN :
    (SendTransaction (sampleRPC 100 100) (sampleSession (.ofInt 0)) sampleAddress
      "nan" "id").effects
      = [.rpcSendTransaction sampleAddress .nan "id" (.ofInt 1) 4 ""] ∧
    Float64.lt (.ofInt 0) .nan = false ∧ Float64.le .nan (.ofInt 5000000) = false ∧
    Float64.le (Float64.add .nan (.ofInt 1)) (.ofInt 0) = false := by
  decide

/-! ## Properties of `RequestConnectionInfo` -/

/-- Adding 10 to, or subtracting 1 from, a height does not wrap around unless the height is
within 10 of the largest `int` or is the smallest one. -/
theorem wrapInt_height (k : Int) (h1 : -(2 ^ 63) < k) (h2 : k < 2 ^ 63 - 10) :
    wrapInt (k - 1) = k - 1 ∧ wrapInt (k + 10) = k + 10 := by
  unfold wrapInt
  constructor <;> omega

/-- C3: for every pair of heights `(blockCount, knownBlockCount)` returned by a successful
status call, `RequestConnectionInfo` returns the "getting block count" message and clears
`WalletdSynced` when `knownBlockCount = 0`; otherwise the "syncing" message and a cleared flag
when `blockCount < knownBlockCount - 1` or `blockCount > knownBlockCount + 10`; otherwise the
"synced" message and a set flag. The flag is set exactly when the message is the synced one.
The sums are Go `int` sums; they are the mathematical ones for every `knownBlockCount`
strictly between `-2^63` and `2^63 - 10`. -/
theorem RequestConnectionInfo_classification (rpc : RPC) (s : State)
    (blockCount knownBlockCount peerCount : Int)
    (h : rpc.RequestStatus s.rpcPassword = (blockCount, knownBlockCount, peerCount, none)) :
    let o := RequestConnectionInfo rpc s
    (knownBlockCount = 0 →
      o.ret.1 = "Getting block count... (No transfers allowed until synced)" ∧
      o.state.WalletdSynced = false) ∧
    (knownBlockCount ≠ 0 →
      (blockCount < wrapInt (knownBlockCount - 1) ∨
        blockCount > wrapInt (knownBlockCount + 10)) →
      o.ret.1 = "Wallet syncing... (No transfers allowed until synced)" ∧
      o.state.WalletdSynced = false) ∧
    (knownBlockCount ≠ 0 → wrapInt (knownBlockCount - 1) ≤ blockCount →
      blockCount ≤ wrapInt (knownBlockCount + 10) →
      o.ret.1 = "Wallet synced" ∧ o.state.WalletdSynced = true) ∧
    (o.state.WalletdSynced = true ↔ o.ret.1 = "Wallet synced") ∧
    o.ret.2.2.2.2 = none ∧
    (-(2 ^ 63) < knownBlockCount → knownBlockCount < 2 ^ 63 - 10 →
      wrapInt (knownBlockCount - 1) = knownBlockCount - 1 ∧
      wrapInt (knownBlockCount + 10) = knownBlockCount + 10) := by
  intro o
  have ho : o = RequestConnectionInfo rpc s := rfl
  simp only [RequestConnectionInfo, h] at ho
  refine ⟨?_, ?_, ?_, ?_, ?_, wrapInt_height knownBlockCount⟩
  · intro hk
    simp [ho, hk]
  · intro hk hc
    simp [ho, hk, hc]
  · intro hk h1 h2
    have hc : ¬ (blockCount < wrapInt (knownBlockCount - 1) ∨
        blockCount > wrapInt (knownBlockCount + 10)) := by
      rintro (h | h) <;> omega
    simp [ho, hk, hc]
  · by_cases hk : knownBlockCount = 0
    · simp [ho, hk]
    · by_cases hc : blockCount < wrapInt (knownBlockCount - 1) ∨
          blockCount > wrapInt (knownBlockCount + 10)
      · simp [ho, hk, hc]
      · simp [ho, hk, hc]
  · by_cases hk : knownBlockCount = 0
    · simp [ho, hk]
    · by_cases hc : blockCount < wrapInt (knownBlockCount - 1) ∨
          blockCount > wrapInt (knownBlockCount + 10)
      · simp [ho, hk, hc]
      · simp [ho, hk, hc]

/-- The classification evaluated at the heights (100, 0), (100, 100) and (50, 100). -/
theorem RequestConnectionInfo_classification_witness :
    (((RequestConnectionInfo (sampleRPC 100 0) State.init).ret.1
        = "Getting block count... (No transfers allowed until synced)" ∧
      (RequestConnectionInfo (sampleRPC 100 0) State.init).state.WalletdSynced = false) ∧
     ((RequestConnectionInfo (sampleRPC 100 100) State.init).ret.1 = "Wallet synced" ∧
      (RequestConnectionInfo (sampleRPC 100 100) State.init).state.WalletdSynced = true) ∧
     ((RequestConnectionInfo (sampleRPC 50 100) State.init).ret.1
        = "Wallet syncing... (No transfers allowed until synced)" ∧
      (RequestConnectionInfo (sampleRPC 50 100) State.init).state.WalletdSynced = false)) ∧
    wrapInt (100 - 1) = 100 - 1 ∧ wrapInt (100 + 10) = 100 + 10 :=
  ⟨⟨(RequestConnectionInfo_classification (sampleRPC 100 0) State.init 100 0 8 rfl).1 rfl,
    (RequestConnectionInfo_classification (sampleRPC 100 100) State.init 100 100 8 rfl).2.2.1
      (by decide) (by decide) (by decide),
    (RequestConnectionInfo_classification (sampleRPC 50 100) State.init 50 100 8 rfl).2.1
      (by decide) (by decide)⟩,
   (RequestConnectionInfo_classification (sampleRPC 100 100) State.init 100 100 8 rfl).2.2.2.2.2
      (by decide) (by decide)⟩

/-! ## The session state across start and stop -/

/-- C4 (the code departs from it): two reachable states break the invariant. After a
successful start, a status query that finds the wallet synced, and a stop,
`WalletdOpenAndRunning` is false while `WalletdSynced` is still true; and after a start whose
readiness probe failed, `WalletdOpenAndRunning` is false while `WalletFilename` is already
set. -/
theorem session_invariant_broken :
    (Reachable stoppedSession ∧ stoppedSession.WalletdOpenAndRunning = false ∧
      stoppedSession.WalletdSynced = true) ∧
    (Reachable failedStartSession ∧ failedStartSession.WalletdOpenAndRunning = false ∧
      failedStartSession.WalletFilename = "my.wallet") := by
  refine ⟨⟨?_, by decide, by decide⟩, ⟨?_, by decide, by decide⟩⟩
  · exact .gracefullyQuitWalletd _ _ (.requestConnectionInfo _ _ (.startWalletd _ _ _ _ .init))
  · exact .startWalletd _ _ _ _ .init

/-- C5 (the code departs from it): `GracefullyQuitWalletd` always empties the address, the
available balance, the filename and the process handle and clears `WalletdOpenAndRunning`,
but it leaves `WalletdSynced` as it was; stopping the synced sample session ends with
`WalletdSynced = true`. -/
theorem GracefullyQuitWalletd_keeps_synced :
    (∀ (w : World) (s : State),
      (GracefullyQuitWalletd w s).state =
        { s with WalletAvailableBalance := .fin 0 0, WalletAddress := "", WalletFilename := "",
                 cmdWalletd := none, WalletdOpenAndRunning := false }) ∧
    syncedSession.WalletdOpenAndRunning = true ∧ syncedSession.WalletdSynced = true ∧
    (GracefullyQuitWalletd (sampleWorld "") syncedSession).state.WalletdSynced = true := by
  refine ⟨fun w s => rfl, by decide, by decide, by decide⟩

/-! ## The extension check of `StartWalletd` -/

/-- A non-empty result of the `filepath.Ext` loop is the dot met first together with the text
walked over before it. -/
theorem extRev_eq_cons (w : Bool) :
    ∀ (r acc out : List Char), extRev w r acc = out → out ≠ [] →
      ∃ pre rest, r = pre ++ '.' :: rest ∧ out = '.' :: (pre.reverse ++ acc) := by
  intro r
  induction r with
  | nil => intro acc out h hne; exact absurd (by simpa [extRev] using h.symm) hne
  | cons c rest ih =>
    intro acc out h hne
    unfold extRev at h
    split_ifs at h with h1 h2
    · exact absurd h.symm hne
    · exact ⟨[], rest, by simp [h2], by simp [← h, h2]⟩
    · obtain ⟨pre, rest', hr, ho⟩ := ih (c :: acc) out h hne
      exact ⟨c :: pre, rest', by simp [hr], by simp [ho]⟩

/-- The extension of a path is `.wallet` exactly when the path ends with `.wallet`. -/
theorem Ext_eq_wallet_iff (windows : Bool) (path : String) :
    Ext windows path = ".wallet" ↔ HasSuffix path ".wallet" = true := by
  unfold Ext HasSuffix
  rw [List.isSuffixOf_iff_suffix]
  constructor
  · intro h
    have h' : extRev windows path.data.reverse [] = ".wallet".data := by
      have := congrArg String.data h
      simpa using this
    obtain ⟨pre, rest, hr, ho⟩ := extRev_eq_cons windows _ _ _ h' (by decide)
    have hp : path.data = rest.reverse ++ '.' :: pre.reverse := by
      have := congrArg List.reverse hr
      simpa using this
    have hpre : pre.reverse = "wallet".data := by
      have h1 : ".wallet".data = '.' :: "wallet".data := by decide
      rw [h1] at ho
      simpa using (List.cons.inj ho).2.symm
    refine ⟨rest.reverse, ?_⟩
    rw [hp, hpre]
  · rintro ⟨p, hp⟩
    have hr : path.data.reverse = 't' :: 'e' :: 'l' :: 'l' :: 'a' :: 'w' :: '.' :: p.reverse := by
      rw [← hp]
      have h1 : ".wallet".data = ['.', 'w', 'a', 'l', 'l', 'e', 't'] := by decide
      rw [h1]
      simp
    rw [hr]
    cases windows <;> simp [extRev, IsPathSeparator]

/-- C6: a wallet path that does not end in `.wallet` makes `StartWalletd` return the
validation error at once: the package state (session fields, credential, process handle) is
unchanged and nothing is done to the outside world (no file created, no process started);
and the extension check passes exactly for the paths that end with `.wallet`. -/
theorem StartWalletd_rejects_wrong_extension (w : World) (s : State)
    (walletPath walletPassword : String) :
    (HasSuffix walletPath ".wallet" = false →
      StartWalletd w s walletPath walletPassword
        = ⟨s, .returned (some "filename should end with .wallet"), []⟩) ∧
    (Ext w.windows walletPath = ".wallet" ↔ HasSuffix walletPath ".wallet" = true) := by
  refine ⟨fun h => ?_, Ext_eq_wallet_iff _ _⟩
  have hext : Ext w.windows walletPath ≠ ".wallet" := by
    rw [Ne, Ext_eq_wallet_iff, h]
    decide
  simp [StartWalletd, hext]

/-- The path `"wallets/my.txt"` does not end in `.wallet` and is rejected without effect. -/
theorem StartWalletd_rejects_wrong_extension_witness :
    HasSuffix "wallets/my.txt" ".wallet" = false ∧
    StartWalletd (sampleWorld "") startedSession "wallets/my.txt" "secret"
      = ⟨startedSession, .returned (some "filename should end with .wallet"), []⟩ :=
  ⟨by decide,
    (StartWalletd_rejects_wrong_extension (sampleWorld "") startedSession "wallets/my.txt"
      "secret").1 (by decide)⟩

/-! ## The collision check -/

/-- The search of `findProcess` succeeds exactly when the table holds a process with that
executable. -/
theorem findProcess_err_eq_none (ps : List Process) (key : String) :
    (findProcess ps key).2.2 = none ↔ ∃ p ∈ ps, p.Executable = key := by
  unfold findProcess
  cases h : ps.find? (fun p => decide (p.Executable = key)) with
  | none =>
    simp only [reduceCtorEq, false_iff, not_exists, not_and]
    intro p hp
    have := List.find?_eq_none.1 h p hp
    simpa using this
  | some p =>
    simp only [true_iff]
    exact ⟨p, List.mem_of_find?_eq_some h, by simpa using List.find?_some h⟩

/-- The check `isWalletdRunning` holds exactly when the table holds a monitored executable. -/
theorem isWalletdRunning_iff (ps : List Process) (s : State) :
    isWalletdRunning ps s = true ↔ ∃ p ∈ ps, Monitored s p.Executable := by
  unfold isWalletdRunning
  constructor
  · intro h
    split_ifs at h with h1 h2 h3 h4 h5
    · obtain ⟨p, hp, he⟩ := (findProcess_err_eq_none _ _).1 h1
      exact ⟨p, hp, Or.inl he⟩
    · obtain ⟨p, hp, he⟩ := (findProcess_err_eq_none _ _).1 h2
      exact ⟨p, hp, Or.inr (Or.inl he)⟩
    · obtain ⟨p, hp, he⟩ := (findProcess_err_eq_none _ _).1 h4
      exact ⟨p, hp, Or.inr (Or.inr ⟨h3, Or.inl he⟩)⟩
    · obtain ⟨p, hp, he⟩ := (findProcess_err_eq_none _ _).1 h5
      exact ⟨p, hp, Or.inr (Or.inr ⟨h3, Or.inr he⟩)⟩
  · rintro ⟨p, hp, hm⟩
    rcases hm with he | he | ⟨hw, he | he⟩
    · simp [(findProcess_err_eq_none ps walletdCommandName).2 ⟨p, hp, he⟩]
    · simp [(findProcess_err_eq_none ps turtlecoindCommandName).2 ⟨p, hp, he⟩]
    · simp [(findProcess_err_eq_none ps (walletdCommandName ++ ".exe")).2 ⟨p, hp, he⟩, hw]
    · simp [(findProcess_err_eq_none ps (turtlecoindCommandName ++ ".exe")).2 ⟨p, hp, he⟩, hw]

/-- A call of `Setup` selects exactly one platform, Linux standing for every unknown name. -/
theorem Setup_selects_platform (s : State) (platform : String) :
    let s' := Setup s platform
    (s'.isPlatformWindows = true ↔ platform = "windows") ∧
    (s'.isPlatformDarwin = true ↔ platform = "darwin") ∧
    (s'.isPlatformLinux = true ↔ platform ≠ "windows" ∧ platform ≠ "darwin") := by
  unfold Setup
  by_cases h1 : platform = "darwin"
  · subst h1; simp
  · by_cases h2 : platform = "windows"
    · subst h2; simp
    · by_cases h3 : platform = "linux" <;> simp [h1, h2, h3]

/-- Once past the extension and collision checks `StartWalletd` acts on the outside world. -/
theorem StartWalletd_effects_ne_nil (w : World) (s : State) (walletPath walletPassword : String)
    (hext : Ext w.windows walletPath = ".wallet") (hrun : isWalletdRunning w.processes s = false) :
    (StartWalletd w s walletPath walletPassword).effects ≠ [] := by
  unfold StartWalletd
  simp only [hext, hrun, ne_eq, not_true_eq_false, if_false, Bool.false_eq_true]
  repeat' split
  all_goals simp [startVerdict]
  all_goals split <;> simp

/-- The reading loop of `CreateWallet` only adds effects after those already performed. -/
theorem createLoop_effects (s : State) (exited : Nat → Bool) :
    ∀ (lines errs : List String) (k : Nat) (effs : List Effect),
      ∃ t, (createLoop s exited lines errs k effs).2.2.2 = effs ++ t := by
  intro lines
  induction lines with
  | nil => intro errs k effs; exact ⟨[], by simp [createLoop]⟩
  | cons line rest ih =>
    intro errs k effs
    unfold createLoop
    simp only
    split_ifs with h
    · exact ⟨[], by simp⟩
    · obtain ⟨t, ht⟩ := ih (match createError line with
        | some e => errs ++ [e]
        | none => errs) (k + 1) (effs ++ killWalletd s (exited k) ++ [.sleep 1000])
      exact ⟨killWalletd s (exited k) ++ [.sleep 1000] ++ t, by rw [ht]; simp⟩

/-- The end of `CreateWallet` keeps the effects performed before it. -/
theorem createVerdict_effects (w : World) (s : State) (done : List Effect) :
    ∃ t, (createVerdict w s done).effects = done ++ t := by
  obtain ⟨t, ht⟩ := createLoop_effects s w.exitedInTime (readLog w) [] 0 done
  unfold createVerdict
  simp only
  split_ifs
  · exact ⟨t ++ killWalletd s (w.exitedInTime
      (createLoop s w.exitedInTime (readLog w) [] 0 done).2.2.1), by simp [ht]⟩
  · exact ⟨t, ht⟩

/-- The end of `CreateWallet` leaves a non-empty list of effects non-empty. -/
theorem createVerdict_effects_ne_nil (w : World) (s : State) (done : List Effect)
    (h : done ≠ []) : (createVerdict w s done).effects ≠ [] := by
  obtain ⟨t, ht⟩ := createVerdict_effects w s done
  rw [ht]
  simp [h]

/-- Once past its three precondition checks `CreateWallet` acts on the outside world. -/
theorem CreateWallet_effects_ne_nil (w : World) (s : State) (f p v k : String)
    (hidle : s.WalletdOpenAndRunning = false)
    (hname : (Contains f "/" || Contains f " " || Contains f ":") = false)
    (hrun : isWalletdRunning w.processes s = false) :
    (CreateWallet w s f p v k).effects ≠ [] := by
  unfold CreateWallet
  simp only [hidle, hname, hrun, if_false, Bool.false_eq_true]
  split
  · simp
  · split_ifs
    · simp
    · split
      · simp
      · exact createVerdict_effects_ne_nil _ _ _ (by simp)

/-- C7: `isWalletdRunning` holds exactly when the process table holds an executable named as
one of the two daemons (or, with the Windows platform selected, as one of their `.exe`
variants). When it does, `StartWalletd` (called with a `.wallet` path) and `CreateWallet`
(called in an idle session with an acceptable filename) both return the collision message,
leave the package state unchanged (no handle, no credential) and do nothing to the outside
world; the message ends with the hint of the selected platform. When it does not,
`isWalletdRunning` is false and both calls go on past the collision check. -/
theorem collision_is_reported (w : World) (s : State) :
    (isWalletdRunning w.processes s = true ↔ ∃ p ∈ w.processes, Monitored s p.Executable) ∧
    ((∃ p ∈ w.processes, Monitored s p.Executable) →
      (∀ walletPath walletPassword, HasSuffix walletPath ".wallet" = true →
        StartWalletd w s walletPath walletPassword
          = ⟨s, .returned (some (collisionMessage s)), []⟩) ∧
      (∀ f p v k, s.WalletdOpenAndRunning = false →
        (Contains f "/" || Contains f " " || Contains f ":") = false →
        CreateWallet w s f p v k = ⟨s, .returned (some (collisionMessage s)), []⟩)) ∧
    ((s.isPlatformWindows = true → collisionMessage s =
        "Walletd or TurtleCoind is already running in the background.\n" ++
          "Please close it via the task manager.") ∧
     (s.isPlatformWindows = false → s.isPlatformDarwin = true → collisionMessage s =
        "Walletd or TurtleCoind is already running in the background.\n" ++
          "Please close it via the activity monitor.") ∧
     (s.isPlatformWindows = false → s.isPlatformDarwin = false → s.isPlatformLinux = true →
        collisionMessage s =
        "Walletd or TurtleCoind is already running in the background.\n" ++
          "Please close it via a system monitor app.")) ∧
    ((¬ ∃ p ∈ w.processes, Monitored s p.Executable) →
      isWalletdRunning w.processes s = false ∧
      (∀ walletPath walletPassword, HasSuffix walletPath ".wallet" = true →
        (StartWalletd w s walletPath walletPassword).effects ≠ []) ∧
      (∀ f p v k, s.WalletdOpenAndRunning = false →
        (Contains f "/" || Contains f " " || Contains f ":") = false →
        (CreateWallet w s f p v k).effects ≠ [])) := by
  refine ⟨isWalletdRunning_iff _ _, fun h => ⟨?_, ?_⟩, ⟨?_, ?_, ?_⟩, fun h => ?_⟩
  · intro walletPath walletPassword hext
    have hrun := (isWalletdRunning_iff _ _).2 h
    have hext' := (Ext_eq_wallet_iff w.windows walletPath).2 hext
    simp [StartWalletd, hext', hrun]
  · intro f p v k hidle hname
    have hrun := (isWalletdRunning_iff _ _).2 h
    simp only [Bool.or_eq_false_iff] at hname
    simp [CreateWallet, hidle, hname, hrun]
  · intro h1
    simp only [collisionMessage, h1, if_true]
    decide
  · intro h1 h2
    simp only [collisionMessage, h1, h2, if_true, if_false, Bool.false_eq_true]
    decide
  · intro h1 h2 h3
    simp only [collisionMessage, h1, h2, h3, if_true, if_false, Bool.false_eq_true]
    decide
  · have hrun : isWalletdRunning w.processes s = false := by
      rw [← Bool.not_eq_true, isWalletdRunning_iff]
      exact h
    refine ⟨hrun, ?_, ?_⟩
    · intro walletPath walletPassword hext
      exact StartWalletd_effects_ne_nil w s walletPath walletPassword
        ((Ext_eq_wallet_iff w.windows walletPath).2 hext) hrun
    · intro f p v k hidle hname
      exact CreateWallet_effects_ne_nil w s f p v k hidle hname hrun

/-- With a `TurtleCoind` process in the table, `StartWalletd` and `CreateWallet` report the
collision from the initial (Linux) state and do nothing else; without it both go on. -/
theorem collision_is_reported_witness :
    ((∃ p ∈ busyWorld.processes, Monitored State.init p.Executable) ∧
      StartWalletd busyWorld State.init "wallets/my.wallet" "secret"
        = ⟨State.init, .returned (some (collisionMessage State.init)), []⟩ ∧
      CreateWallet busyWorld State.init "new" "secret" "" ""
        = ⟨State.init, .returned (some (collisionMessage State.init)), []⟩ ∧
      collisionMessage State.init =
        "Walletd or TurtleCoind is already running in the background.\n" ++
          "Please close it via a system monitor app.") ∧
    ((¬ ∃ p ∈ (sampleWorld "").processes, Monitored State.init p.Executable) ∧
      isWalletdRunning (sampleWorld "").processes State.init = false ∧
      (StartWalletd (sampleWorld "") State.init "wallets/my.wallet" "secret").effects ≠ [] ∧
      (CreateWallet (sampleWorld "") State.init "new" "secret" "" "").effects ≠ []) :=
  have hbusy : ∃ p ∈ busyWorld.processes, Monitored State.init p.Executable :=
    ⟨⟨977, "TurtleCoind"⟩, by decide, Or.inr (Or.inl rfl)⟩
  have hfree : ¬ ∃ p ∈ (sampleWorld "").processes, Monitored State.init p.Executable := by
    rw [← isWalletdRunning_iff]
    decide
  ⟨⟨hbusy,
    ((collision_is_reported busyWorld State.init).2.1 hbusy).1 _ _ (by decide),
    ((collision_is_reported busyWorld State.init).2.1 hbusy).2 _ _ _ _ (by decide) (by decide),
    (collision_is_reported busyWorld State.init).2.2.1.2.2 (by decide) (by decide) (by decide)⟩,
   ⟨hfree,
    ((collision_is_reported (sampleWorld "") State.init).2.2.2 hfree).1,
    ((collision_is_reported (sampleWorld "") State.init).2.2.2 hfree).2.1 _ _ (by decide),
    ((collision_is_reported (sampleWorld "") State.init).2.2.2 hfree).2.2 _ _ _ _
      (by decide) (by decide)⟩⟩

/-! ## Lemmas on `strings.Contains` and `strings.Split` -/

/-- The function `containsL` decides whether the separator occurs as a contiguous part. -/
theorem containsL_iff_occurs (sep : List Char) :
    ∀ l : List Char, containsL sep l = true ↔ sep <:+: l := by
  intro l
  induction l with
  | nil => simp [containsL, List.isEmpty_iff]
  | cons c cs ih =>
    simp only [containsL, Bool.or_eq_true, List.isPrefixOf_iff_prefix, ih, List.infix_cons_iff]

/-- Go `strings.Contains` in terms of the characters of the two strings. -/
theorem Contains_iff_occurs (s sub : String) : Contains s sub = true ↔ sub.data <:+: s.data :=
  containsL_iff_occurs _ _

/-- A one-character string is contained exactly when its character occurs. -/
theorem Contains_singleton (s : String) (c : Char) :
    Contains s (String.singleton c) = true ↔ c ∈ s.data := by
  rw [Contains_iff_occurs]
  show [c] <:+: s.data ↔ c ∈ s.data
  constructor
  · rintro ⟨a, b, h⟩
    rw [← h]
    simp
  · intro h
    obtain ⟨a, b, h⟩ := List.append_of_mem h
    exact ⟨a, b, by simp [h]⟩

/-- While a separator occurrence is being skipped, the scan resumes after it. -/
theorem splitLastL_skip (sep : List Char) :
    ∀ (l : List Char) (skip : Nat),
      splitLastL sep l skip [] = splitLastL sep (l.drop skip) 0 [] := by
  intro l
  induction l with
  | nil => intro skip; cases skip <;> simp [splitLastL]
  | cons c cs ih =>
    intro skip
    cases skip with
    | zero => simp
    | succ n => simp [splitLastL, ih n]

/-- Without an occurrence of the separator the whole text is the last piece. -/
theorem splitLastL_of_absent (sep : List Char) :
    ∀ (l cur : List Char), ¬ sep <:+: l → splitLastL sep l 0 cur = cur.reverse ++ l := by
  intro l
  induction l with
  | nil => intro cur _; simp [splitLastL]
  | cons c cs ih =>
    intro cur h
    have h1 : ¬ sep <+: c :: cs := fun hp => h hp.isInfix
    have h2 : ¬ sep <:+: cs := fun hi => h (List.infix_cons_iff.2 (Or.inr hi))
    have h3 : sep.isPrefixOf (c :: cs) = false := by
      rw [← Bool.not_eq_true, List.isPrefixOf_iff_prefix]; exact h1
    simp [splitLastL, h3, ih (c :: cur) h2]

/-- At the first occurrence of the separator the scan starts afresh behind it. -/
theorem splitLastL_of_present (sep : List Char) (hsep : sep ≠ []) :
    ∀ (l cur : List Char), sep <:+: l →
      ∃ u v, l = u ++ sep ++ v ∧ splitLastL sep l 0 cur = splitLastL sep v 0 [] := by
  intro l
  induction l with
  | nil =>
    intro cur h
    exact absurd (List.infix_nil.1 h) hsep
  | cons c cs ih =>
    intro cur h
    by_cases hp : sep <+: c :: cs
    · obtain ⟨v, hv⟩ := hp
      refine ⟨[], v, by simp [hv], ?_⟩
      have h3 : sep.isPrefixOf (c :: cs) = true := List.isPrefixOf_iff_prefix.2 ⟨v, hv⟩
      have hlen : 0 < sep.length := List.length_pos.2 hsep
      have hdrop : cs.drop (sep.length - 1) = v := by
        have h4 : (c :: cs).drop sep.length = v := by rw [← hv]; simp
        have h5 : sep.length = (sep.length - 1) + 1 := by omega
        rw [h5, List.drop_succ_cons] at h4
        exact h4
      simp only [splitLastL, h3, if_true]
      rw [splitLastL_skip, hdrop]
    · have hi : sep <:+: cs := by
        rcases List.infix_cons_iff.1 h with h' | h'
        · exact absurd h' hp
        · exact h'
      obtain ⟨u, v, huv, hres⟩ := ih (c :: cur) hi
      have h3 : sep.isPrefixOf (c :: cs) = false := by
        rw [← Bool.not_eq_true, List.isPrefixOf_iff_prefix]; exact hp
      exact ⟨c :: u, v, by simp [huv], by simp [splitLastL, h3, hres]⟩

/-- The last piece of a split holds no occurrence of the separator, and when the separator
occurs in the text the last piece is what follows one of its occurrences. -/
theorem splitLastL_spec (sep : List Char) (hsep : sep ≠ []) :
    ∀ (n : Nat) (l : List Char), l.length ≤ n →
      ¬ sep <:+: splitLastL sep l 0 [] ∧
      (sep <:+: l → ∃ pre, l = pre ++ sep ++ splitLastL sep l 0 []) := by
  intro n
  induction n with
  | zero =>
    intro l hl
    have : l = [] := List.length_eq_zero.1 (Nat.le_zero.1 hl)
    subst this
    simp [splitLastL, hsep]
  | succ n ih =>
    intro l hl
    by_cases hi : sep <:+: l
    · obtain ⟨u, v, huv, hres⟩ := splitLastL_of_present sep hsep l [] hi
      have hlen : 0 < sep.length := List.length_pos.2 hsep
      have hv : v.length ≤ n := by
        have := congrArg List.length huv
        simp at this
        omega
      obtain ⟨h1, h2⟩ := ih v hv
      rw [hres]
      refine ⟨h1, fun _ => ?_⟩
      by_cases hv' : sep <:+: v
      · obtain ⟨pre, hpre⟩ := h2 hv'
        refine ⟨u ++ sep ++ pre, ?_⟩
        rw [huv]
        conv_lhs => rw [hpre]
        simp
      · exact ⟨u, by rw [splitLastL_of_absent sep v [] hv']; simpa using huv⟩
    · rw [splitLastL_of_absent sep l [] hi]
      exact ⟨by simpa using hi, fun h => absurd h hi⟩

/-- The text collected from a line that contains the marker follows an occurrence of the
marker and holds no further occurrence: it is the text after the last marker. -/
theorem splitLast_spec (line marker : String) (hm : marker ≠ "")
    (h : Contains line marker = true) :
    (∃ pre : String, line = pre ++ marker ++ splitLast line marker) ∧
    Contains (splitLast line marker) marker = false := by
  have hsep : marker.data ≠ [] := by
    intro h0
    apply hm
    exact String.ext h0
  obtain ⟨h1, h2⟩ := splitLastL_spec marker.data hsep line.data.length line.data (le_refl _)
  obtain ⟨pre, hpre⟩ := h2 ((Contains_iff_occurs line marker).1 h)
  constructor
  · refine ⟨String.mk pre, ?_⟩
    apply String.ext
    simp only [splitLast, String.data_append]
    exact hpre
  · rw [← Bool.not_eq_true, Contains_iff_occurs]
    exact h1

/-! ## The precondition checks of `CreateWallet` -/

/-- C10 (the code departs from it): on a Windows host, in an idle session, the filename
`wallets\new` contains a path separator, and `CreateWallet` does not fail with the filename
error: the guard only looks for `/`, a space and `:`. The daemon is started with that name,
so the wallet is not created in the folder of the daemon, and the call returns without
error. -/
theorem CreateWallet_accepts_backslash :
    IsPathSeparator windowsWorld.windows '\\' = true ∧ '\\' ∈ "wallets\\new".data ∧
    (Setup State.init "windows").WalletdOpenAndRunning = false ∧
    (CreateWallet windowsWorld (Setup State.init "windows") "wallets\\new" "secret" "" "").ret
      = .returned none ∧
    Effect.start ⟨"./walletd", ["-w", "wallets\\new", "-p", "secret", "-l",
        "walletdCurrentSession.log", "-g"]⟩ ∈
      (CreateWallet windowsWorld (Setup State.init "windows") "wallets\\new" "secret" ""
        "").effects := by
  decide

/-- The two first checks of `CreateWallet`: in an active session it fails with the
already-running error; in an idle one, every filename that contains a slash, a space or a
colon makes it fail with the filename error. In both cases the package state (session fields
and process handle) is unchanged and nothing is done to the outside world: no process is
started and no log file is created or opened. -/
theorem CreateWallet_rejects_bad_input (w : World) (s : State) (f p v k : String) :
    (s.WalletdOpenAndRunning = true →
      CreateWallet w s f p v k =
        ⟨s, .returned (some ("walletd is already running. It should be stopped before " ++
          "being able to generate a new wallet")), []⟩) ∧
    (s.WalletdOpenAndRunning = false → ('/' ∈ f.data ∨ ' ' ∈ f.data ∨ ':' ∈ f.data) →
      CreateWallet w s f p v k =
        ⟨s, .returned (some "you should avoid spaces and most special characters in the filename"),
          []⟩) := by
  constructor
  · intro h
    simp only [CreateWallet, h, if_true]
    rfl
  · intro h hc
    have hc' : (Contains f "/" || Contains f " " || Contains f ":") = true := by
      simp only [Bool.or_eq_true]
      rcases hc with hc | hc | hc
      · exact Or.inl (Or.inl ((Contains_singleton f '/').2 hc))
      · exact Or.inl (Or.inr ((Contains_singleton f ' ').2 hc))
      · exact Or.inr ((Contains_singleton f ':').2 hc)
    simp only [CreateWallet, h, hc', if_true, if_false, Bool.false_eq_true]

/-- An active session rejects `CreateWallet`, and the initial one rejects `"my wallet"`,
`"wallets/new"` and `"C:new"`. -/
theorem CreateWallet_rejects_bad_input_witness :
    (startedSession.WalletdOpenAndRunning = true ∧
      CreateWallet (sampleWorld "") startedSession "new" "secret" "" "" =
        ⟨startedSession, .returned (some ("walletd is already running. It should be " ++
          "stopped before being able to generate a new wallet")), []⟩) ∧
    (State.init.WalletdOpenAndRunning = false ∧ ' ' ∈ "my wallet".data ∧
      CreateWallet (sampleWorld "") State.init "my wallet" "secret" "" "" =
        ⟨State.init,
          .returned (some "you should avoid spaces and most special characters in the filename"),
          []⟩) ∧
    ('/' ∈ "wallets/new".data ∧
      CreateWallet (sampleWorld "") State.init "wallets/new" "secret" "" "" =
        ⟨State.init,
          .returned (some "you should avoid spaces and most special characters in the filename"),
          []⟩) ∧
    (':' ∈ "C:new".data ∧
      CreateWallet (sampleWorld "") State.init "C:new" "secret" "" "" =
        ⟨State.init,
          .returned (some "you should avoid spaces and most special characters in the filename"),
          []⟩) :=
  ⟨⟨by decide,
    (CreateWallet_rejects_bad_input (sampleWorld "") startedSession "new" "secret" "" "").1
      (by decide)⟩,
   ⟨by decide, by decide,
    (CreateWallet_rejects_bad_input (sampleWorld "") State.init "my wallet" "secret" "" "").2
      (by decide) (Or.inr (Or.inl (by decide)))⟩,
   ⟨by decide,
    (CreateWallet_rejects_bad_input (sampleWorld "") State.init "wallets/new" "secret" "" "").2
      (by decide) (Or.inl (by decide))⟩,
   ⟨by decide,
    (CreateWallet_rejects_bad_input (sampleWorld "") State.init "C:new" "secret" "" "").2
      (by decide) (Or.inr (Or.inr (by decide)))⟩⟩

/-! ## The verdict of `StartWalletd` -/

/-- Appending the collected lines one by one appends their concatenation. -/
theorem appendAll_eq (m : String) (l : List String) : appendAll m l = m ++ String.join l := by
  unfold appendAll String.join
  suffices h : ∀ a b : String,
      l.foldl (fun r x => r ++ x) (a ++ b) = a ++ l.foldl (fun r x => r ++ x) b by
    simpa using h m ""
  induction l with
  | nil => intro a b; rfl
  | cons x xs ih =>
    intro a b
    simp only [List.foldl_cons]
    rw [String.append_assoc, ih]

/-- The loop of `StartWalletd` collects, in log order, the last split piece of every line
that contains the marker. -/
theorem startErrors_eq (lines : List String) :
    startErrors lines =
      (lines.filter (fun l => Contains l " ERROR  ")).map (fun l => splitLast l " ERROR  ") := by
  induction lines with
  | nil => rfl
  | cons line rest ih =>
    unfold startErrors
    by_cases h : Contains line " ERROR  " = true
    · simp [h, ih]
    · simp [h, ih]

/-- Past the spawn, `StartWalletd` is its verdict on a state that differs from the initial one
in the filename, the credential and the process handle only. -/
theorem StartWalletd_eq_startVerdict (w : World) (s : State)
    (walletPath walletPassword rpcPassword : String)
    (h : StartSpawns w s walletPath rpcPassword) :
    ∃ (cmd : Cmd) (done : List Effect),
      StartWalletd w s walletPath walletPassword =
        startVerdict w { s with WalletFilename := w.Base walletPath, rpcPassword := rpcPassword,
                                cmdWalletd := some cmd } done := by
  obtain ⟨hext, hrun, hdir, hrand, hopen, hstart⟩ := h
  have hpaths : ∀ p, ∃ q, startPaths w { s with WalletFilename := w.Base walletPath } p
      = some q := by
    intro p
    unfold startPaths
    by_cases hd : s.isPlatformDarwin = true
    · obtain ⟨h1, h2⟩ := hdir hd
      obtain ⟨c, hc⟩ := Option.isSome_iff_exists.1 h1
      obtain ⟨d, hd'⟩ := Option.isSome_iff_exists.1 h2
      simp [hd, hc, hd']
    · simp [hd]
  unfold StartWalletd
  simp only [hext, hrun, ne_eq, not_true_eq_false, if_false, Bool.false_eq_true]
  split
  · rename_i heq
    obtain ⟨q, hq⟩ := hpaths _
    rw [hq] at heq
    exact absurd heq (by simp)
  · simp only [hrand, hopen, hstart, Bool.not_true, if_false, Bool.false_eq_true]
    exact ⟨_, _, rfl⟩

/-- C9: once the daemon is started, the readiness probe decides. If the status call made
with the new credential fails, `StartWalletd` returns the fixed text that names the
all-sessions log file followed by the concatenation, in log order, of the text collected from
every line of the current-session log that contains ` ERROR  ` (the text after the last
marker of the line: it follows a marker and holds none), which is the fixed text alone when
no line contains the marker, and `WalletdOpenAndRunning` keeps its value; if the status call
succeeds, `StartWalletd` returns no error and `WalletdOpenAndRunning` is true. -/
theorem StartWalletd_verdict (w : World) (s : State)
    (walletPath walletPassword rpcPassword : String)
    (h : StartSpawns w s walletPath rpcPassword) :
    ((w.rpc.RequestStatus rpcPassword).2.2.2 ≠ none →
      (StartWalletd w s walletPath walletPassword).ret =
        .returned (some (startErrorPrefix ++ String.join
          (((readLog w).filter (fun l => Contains l " ERROR  ")).map
            (fun l => splitLast l " ERROR  ")))) ∧
      (StartWalletd w s walletPath walletPassword).state.WalletdOpenAndRunning
        = s.WalletdOpenAndRunning) ∧
    ((w.rpc.RequestStatus rpcPassword).2.2.2 = none →
      (StartWalletd w s walletPath walletPassword).ret = .returned none ∧
      (StartWalletd w s walletPath walletPassword).state.WalletdOpenAndRunning = true) ∧
    ((∀ line ∈ readLog w, Contains line " ERROR  " = false) →
      startErrorPrefix ++ String.join
          (((readLog w).filter (fun l => Contains l " ERROR  ")).map
            (fun l => splitLast l " ERROR  ")) = startErrorPrefix) ∧
    (∀ line ∈ readLog w, Contains line " ERROR  " = true →
      (∃ pre : String, line = pre ++ " ERROR  " ++ splitLast line " ERROR  ") ∧
      Contains (splitLast line " ERROR  ") " ERROR  " = false) ∧
    startErrorPrefix = "Error opening the daemon walletd. Could be a problem with your " ++
      "wallet file, your password or walletd. More info in the file " ++
      logWalletdAllSessionsFilename ++ "\n" := by
  obtain ⟨cmd, done, heq⟩ := StartWalletd_eq_startVerdict w s walletPath walletPassword
    rpcPassword h
  refine ⟨?_, ?_, ?_, ?_, rfl⟩
  · intro hp
    rw [heq]
    unfold startVerdict
    simp only
    cases hprobe : (w.rpc.RequestStatus rpcPassword).2.2.2 with
    | none => exact absurd hprobe hp
    | some e => simp [appendAll_eq, startErrors_eq]
  · intro hp
    rw [heq]
    unfold startVerdict
    simp [hp]
  · intro hnone
    have : (readLog w).filter (fun l => Contains l " ERROR  ") = [] := by
      rw [List.filter_eq_nil_iff]
      intro l hl
      simp [hnone l hl]
    rw [this]
    simp [String.join]
  · intro line _ hc
    exact splitLast_spec line " ERROR  " (by decide) hc

/-- With the sample failure log and a status call that fails, `StartWalletd` returns the fixed
text followed by the two collected error texts and the session stays closed; with a status
call that succeeds it returns no error and the session is open. -/
theorem StartWalletd_verdict_witness :
    (StartSpawns (sampleWorldNoRPC failureLog) State.init "wallets/my.wallet"
        "aaaaaaeTAoaaaaaaeTAh" ∧
      (StartWalletd (sampleWorldNoRPC failureLog) State.init "wallets/my.wallet" "secret").ret
        = .returned (some (startErrorPrefix ++ String.join
          (((readLog (sampleWorldNoRPC failureLog)).filter
            (fun l => Contains l " ERROR  ")).map (fun l => splitLast l " ERROR  ")))) ∧
      (StartWalletd (sampleWorldNoRPC failureLog) State.init "wallets/my.wallet"
        "secret").state.WalletdOpenAndRunning = false ∧
      startErrorPrefix ++ String.join
          (((readLog (sampleWorldNoRPC failureLog)).filter
            (fun l => Contains l " ERROR  ")).map (fun l => splitLast l " ERROR  "))
        = "Error opening the daemon walletd. Could be a problem with your wallet file, " ++
          "your password or walletd. More info in the file walletd.log\n" ++
          "The password is wrong\ncontainer\n") ∧
    (StartSpawns (sampleWorld failureLog) State.init "wallets/my.wallet"
        "aaaaaaeTAoaaaaaaeTAh" ∧
      (StartWalletd (sampleWorld failureLog) State.init "wallets/my.wallet" "secret").ret
        = .returned none ∧
      (StartWalletd (sampleWorld failureLog) State.init "wallets/my.wallet"
        "secret").state.WalletdOpenAndRunning = true) :=
  ⟨⟨by decide,
    ((StartWalletd_verdict (sampleWorldNoRPC failureLog) State.init "wallets/my.wallet"
      "secret" "aaaaaaeTAoaaaaaaeTAh" (by decide)).1 (by decide)).1,
    ((StartWalletd_verdict (sampleWorldNoRPC failureLog) State.init "wallets/my.wallet"
      "secret" "aaaaaaeTAoaaaaaaeTAh" (by decide)).1 (by decide)).2,
    by decide⟩,
   ⟨by decide,
    ((StartWalletd_verdict (sampleWorld failureLog) State.init "wallets/my.wallet"
      "secret" "aaaaaaeTAoaaaaaaeTAh" (by decide)).2.1 (by decide)).1,
    ((StartWalletd_verdict (sampleWorld failureLog) State.init "wallets/my.wallet"
      "secret" "aaaaaaeTAoaaaaaaeTAh" (by decide)).2.1 (by decide)).2⟩⟩

/-! ## The verdict of `CreateWallet` -/

/-- Joining a list of strings puts the first one in front of the rest joined. -/
theorem join_cons (x : String) (xs : List String) :
    String.join (x :: xs) = x ++ String.join xs := by
  have h := appendAll_eq ("" ++ x) xs
  simp only [String.empty_append] at h
  rw [← h]
  simp [appendAll, String.join]

/-- Every member of a list of strings occurs in their concatenation. -/
theorem occurs_in_join (x : String) :
    ∀ l : List String, x ∈ l → x.data <:+: (String.join l).data := by
  intro l
  induction l with
  | nil => intro h; simp at h
  | cons y ys ih =>
    intro h
    rw [join_cons, String.data_append]
    rcases List.mem_cons.1 h with h | h
    · subst h
      exact (List.prefix_append _ _).isInfix
    · exact (ih h).trans (List.suffix_append _ _).isInfix

/-- Over lines without a success marker the reading loop of `CreateWallet` reaches the end of
the log without success, having collected the error text of every line in order. -/
theorem createLoop_no_success (s : State) (exited : Nat → Bool) :
    ∀ (lines errs : List String) (k : Nat) (effs : List Effect),
      (∀ line ∈ lines, isSuccessLine line = false) →
      (createLoop s exited lines errs k effs).1 = false ∧
      (createLoop s exited lines errs k effs).2.1 = errs ++ lines.filterMap createError := by
  intro lines
  induction lines with
  | nil => intro errs k effs _; simp [createLoop]
  | cons line rest ih =>
    intro errs k effs h
    have h1 : isSuccessLine line = false := h line (List.mem_cons_self _ _)
    have h2 : ∀ l ∈ rest, isSuccessLine l = false := fun l hl => h l (List.mem_cons_of_mem _ hl)
    unfold createLoop
    simp only [h1, if_false, Bool.false_eq_true]
    cases hc : createError line with
    | none => simpa [hc] using ih errs (k + 1) _ h2
    | some e => simpa [hc] using ih (errs ++ [e]) (k + 1) _ h2

/-- Past the spawn, `CreateWallet` is its verdict on a state that differs from the initial one
in the process handle only. -/
theorem CreateWallet_eq_createVerdict (w : World) (s : State) (f p v k : String)
    (h : CreateSpawns w s f) :
    ∃ (cmd : Cmd) (done : List Effect),
      CreateWallet w s f p v k = createVerdict w { s with cmdWalletd := some cmd } done := by
  obtain ⟨hidle, hname, hrun, hdir, hopen, hstart⟩ := h
  have hpaths : ∃ q, createPaths w s f = some q := by
    unfold createPaths
    by_cases hd : s.isPlatformDarwin = true
    · obtain ⟨h1, h2⟩ := hdir hd
      obtain ⟨c, hc⟩ := Option.isSome_iff_exists.1 h1
      obtain ⟨d, hd'⟩ := Option.isSome_iff_exists.1 h2
      simp [hd, hc, hd']
    · simp [hd]
  unfold CreateWallet
  simp only [hidle, hname, hrun, if_false, Bool.false_eq_true]
  split
  · rename_i heq
    obtain ⟨q, hq⟩ := hpaths
    rw [hq] at heq
    exact absurd heq (by simp)
  · simp only [hopen, hstart, Bool.not_true, if_false, Bool.false_eq_true]
    exact ⟨_, _, rfl⟩

/-- Over lines that hold a success marker the reading loop of `CreateWallet` ends with
success. -/
theorem createLoop_success (s : State) (exited : Nat → Bool) :
    ∀ (lines errs : List String) (k : Nat) (effs : List Effect),
      (∃ line ∈ lines, isSuccessLine line = true) →
      (createLoop s exited lines errs k effs).1 = true := by
  intro lines
  induction lines with
  | nil => rintro errs k effs ⟨line, hl, _⟩; simp at hl
  | cons line rest ih =>
    rintro errs k effs ⟨l, hl, hs⟩
    unfold createLoop
    by_cases h1 : isSuccessLine line = true
    · simp [h1]
    · have hrest : ∃ x ∈ rest, isSuccessLine x = true := by
        rcases List.mem_cons.1 hl with h | h
        · exact absurd (h ▸ hs) h1
        · exact ⟨l, h, hs⟩
      simp only [h1, if_false, Bool.false_eq_true]
      exact ih _ _ _ hrest

/-- Past its precondition checks and the spawn, `CreateWallet` returns no error as soon as
one of the lines read from the current-session log is a success marker, whatever error
lines come before it. -/
theorem CreateWallet_succeeds_with_success_marker (w : World) (s : State) (f p v k : String)
    (h : CreateSpawns w s f) (hs : ∃ line ∈ readLog w, isSuccessLine line = true) :
    (CreateWallet w s f p v k).ret = .returned none := by
  obtain ⟨cmd, done, heq⟩ := CreateWallet_eq_createVerdict w s f p v k h
  have h1 := createLoop_success { s with cmdWalletd := some cmd } w.exitedInTime
    (readLog w) [] 0 done hs
  rw [heq]
  unfold createVerdict
  simp only [h1, Bool.not_true, if_false, Bool.false_eq_true]

/-- C8 as stated fails: in the sample log an error line comes before the success marker, and
`CreateWallet`, past its checks and the spawn, collects the error text and then returns no
error. -/
theorem CreateWallet_succeeds_after_error_line :
    CreateSpawns (sampleWorld errorThenSuccessLog) State.init "new" ∧
    readLog (sampleWorld errorThenSuccessLog) =
      ["2018-May-01 10:00:02 ERROR  Failed to save wallet cache\n",
       "2018-May-01 10:00:03 INFO    New wallet is generated. Address: TRTLxyz\n"] ∧
    createError "2018-May-01 10:00:02 ERROR  Failed to save wallet cache\n"
      = some "Failed to save wallet cache\n" ∧
    isSuccessLine "2018-May-01 10:00:02 ERROR  Failed to save wallet cache\n" = false ∧
    isSuccessLine "2018-May-01 10:00:03 INFO    New wallet is generated. Address: TRTLxyz\n"
      = true ∧
    (CreateWallet (sampleWorld errorThenSuccessLog) State.init "new" "secret" "" "").ret
      = .returned none := by
  decide

/-- C8, amended: when no line read from the current-session log is a success marker,
`CreateWallet`, past its precondition checks and the spawn, returns the creation error whose
message is the fixed text followed by the error texts collected from the lines, in order;
so the message contains the text collected from every error line. -/
theorem CreateWallet_fails_without_success_marker (w : World) (s : State) (f p v k : String)
    (h : CreateSpawns w s f) (hno : ∀ line ∈ readLog w, isSuccessLine line = false) :
    (CreateWallet w s f p v k).ret =
      .returned (some (createErrorPrefix ++ String.join ((readLog w).filterMap createError))) ∧
    (∀ line ∈ readLog w, ∀ e, createError line = some e →
      Contains (createErrorPrefix ++ String.join ((readLog w).filterMap createError)) e
        = true) := by
  obtain ⟨cmd, done, heq⟩ := CreateWallet_eq_createVerdict w s f p v k h
  obtain ⟨h1, h2⟩ := createLoop_no_success { s with cmdWalletd := some cmd } w.exitedInTime
    (readLog w) [] 0 done hno
  constructor
  · rw [heq]
    unfold createVerdict
    simp only [h1, h2, Bool.not_false, if_true, List.nil_append, appendAll_eq]
  · intro line hl e he
    rw [Contains_iff_occurs, String.data_append]
    have hmem : e ∈ (readLog w).filterMap createError :=
      List.mem_filterMap.2 ⟨line, hl, he⟩
    exact (occurs_in_join e _ hmem).trans (List.suffix_append _ _).isInfix

/-- With the sample failure log `CreateWallet` returns the creation error made of the fixed
text and the two collected error texts. -/
theorem CreateWallet_fails_without_success_marker_witness :
    CreateSpawns (sampleWorld failureLog) State.init "new" ∧
    (∀ line ∈ readLog (sampleWorld failureLog), isSuccessLine line = false) ∧
    (CreateWallet (sampleWorld failureLog) State.init "new" "secret" "" "").ret =
      .returned (some (createErrorPrefix ++
        String.join ((readLog (sampleWorld failureLog)).filterMap createError))) ∧
    createErrorPrefix ++ String.join ((readLog (sampleWorld failureLog)).filterMap createError)
      = "Error opening walletd and/or creating a wallet. More info in the file walletd.log\n" ++
        "The password is wrong\ncontainer\n" :=
  ⟨by decide, by decide,
    (CreateWallet_fails_without_success_marker (sampleWorld failureLog) State.init "new"
      "secret" "" "" (by decide) (by decide)).1,
    by decide⟩

/-! ## The RPC credential -/

/-- One iteration of the credential loop: `c`, `r` and `k` are the cache, the count of
unused indices and the count of values drawn, after the refill that takes place when no
unused index is left. -/
theorem randLoop_step (src : Nat → Nat) (fuel i cache remain next : Nat) (acc : List Char)
    (c r k : Nat) (hc : c = if remain = 0 then src next % 2 ^ 63 else cache)
    (hr : r = if remain = 0 then letterIdxMax else remain)
    (hk : k = if remain = 0 then next + 1 else next) :
    randLoop src (fuel + 1) (i + 1) cache remain next acc =
      if c &&& letterIdxMask < len letterBytes then
        randLoop src fuel i (c >>> letterIdxBits) (r - 1) k
          (letterBytes.data.getD (c &&& letterIdxMask) 'a' :: acc)
      else
        randLoop src fuel (i + 1) (c >>> letterIdxBits) (r - 1) k acc := by
  subst hc hr hk
  simp only [randLoop]

/-- The character written for a valid index is one of the letters of `letterBytes`. -/
theorem letter_mem (idx : Nat) (h : idx < len letterBytes) :
    letterBytes.data.getD idx 'a' ∈ letterBytes.data := by
  have hlen : len letterBytes = letterBytes.data.length := by decide
  rw [hlen] at h
  rw [List.getD_eq_getElem _ _ h]
  exact List.getElem_mem _

/-- Whatever the credential loop returns consists of the characters already written, with as
many letters of `letterBytes` in front of them as were still to be written. -/
theorem randLoop_spec (src : Nat → Nat) :
    ∀ (fuel todo cache remain next : Nat) (acc out : List Char),
      randLoop src fuel todo cache remain next acc = some out →
      out.length = todo + acc.length ∧ ∀ x ∈ out, x ∈ acc ∨ x ∈ letterBytes.data := by
  intro fuel
  induction fuel with
  | zero =>
    intro todo cache remain next acc out h
    cases todo with
    | zero =>
      simp only [randLoop, Option.some.injEq] at h
      subst h
      exact ⟨by simp, fun x hx => Or.inl hx⟩
    | succ i => simp [randLoop] at h
  | succ fuel ih =>
    intro todo cache remain next acc out h
    cases todo with
    | zero =>
      simp only [randLoop, Option.some.injEq] at h
      subst h
      exact ⟨by simp, fun x hx => Or.inl hx⟩
    | succ i =>
      rw [randLoop_step src fuel i cache remain next acc _ _ _ rfl rfl rfl] at h
      generalize (if remain = 0 then src next % 2 ^ 63 else cache) = c at h
      generalize (if remain = 0 then letterIdxMax else remain) = r at h
      generalize (if remain = 0 then next + 1 else next) = k at h
      by_cases hidx : c &&& letterIdxMask < len letterBytes
      · rw [if_pos hidx] at h
        obtain ⟨h1, h2⟩ := ih _ _ _ _ _ _ h
        refine ⟨by simp at h1; omega, fun x hx => ?_⟩
        rcases h2 x hx with h3 | h3
        · rcases List.mem_cons.1 h3 with h4 | h4
          · exact Or.inr (h4 ▸ letter_mem _ hidx)
          · exact Or.inl h4
        · exact Or.inr h3
      · rw [if_neg hidx] at h
        exact ih _ _ _ _ _ _ h

/-- More fuel does not change what the credential loop returns. -/
theorem randLoop_fuel_mono (src : Nat → Nat) :
    ∀ (fuel fuel' todo cache remain next : Nat) (acc out : List Char), fuel ≤ fuel' →
      randLoop src fuel todo cache remain next acc = some out →
      randLoop src fuel' todo cache remain next acc = some out := by
  intro fuel
  induction fuel with
  | zero =>
    intro fuel' todo cache remain next acc out _ h
    cases todo with
    | zero => cases fuel' <;> simpa [randLoop] using h
    | succ i => simp [randLoop] at h
  | succ fuel ih =>
    intro fuel' todo cache remain next acc out hle h
    cases todo with
    | zero => cases fuel' <;> simpa [randLoop] using h
    | succ i =>
      obtain ⟨g, rfl⟩ : ∃ g, fuel' = g + 1 := ⟨fuel' - 1, by omega⟩
      rw [randLoop_step src fuel i cache remain next acc _ _ _ rfl rfl rfl] at h
      rw [randLoop_step src g i cache remain next acc _ _ _ rfl rfl rfl]
      generalize (if remain = 0 then src next % 2 ^ 63 else cache) = c at h ⊢
      generalize (if remain = 0 then letterIdxMax else remain) = r at h ⊢
      generalize (if remain = 0 then next + 1 else next) = k at h ⊢
      by_cases hidx : c &&& letterIdxMask < len letterBytes
      · rw [if_pos hidx] at h ⊢
        exact ih g _ _ _ _ _ _ (by omega) h
      · rw [if_neg hidx] at h ⊢
        exact ih g _ _ _ _ _ _ (by omega) h

/-- The letter indices of a cache shifted by one index are those of the cache, moved by one. -/
theorem letterIdx_shift (v j : Nat) : letterIdx (v >>> letterIdxBits) j = letterIdx v (j + 1) := by
  unfold letterIdx
  rw [← Nat.shiftRight_add, Nat.mul_succ, Nat.add_comm]

/-- When one of the `r` unused indices of the cache is valid, the loop writes a letter after
at most `r` iterations, without drawing a new value. -/
theorem randLoop_progress (src : Nat → Nat) (next : Nat) :
    ∀ (r fuel todo cache : Nat) (acc : List Char),
      (∃ j, j < r ∧ letterIdx cache j < len letterBytes) → r ≤ fuel →
      ∃ m cache' acc', 1 ≤ m ∧ m ≤ r ∧
        randLoop src fuel (todo + 1) cache r next acc =
          randLoop src (fuel - m) todo cache' (r - m) next acc' := by
  intro r
  induction r with
  | zero => rintro fuel todo cache acc ⟨j, hj, _⟩ _; omega
  | succ r ih =>
    rintro fuel todo cache acc ⟨j, hj, hv⟩ hf
    obtain ⟨g, rfl⟩ : ∃ g, fuel = g + 1 := ⟨fuel - 1, by omega⟩
    rw [randLoop_step src g todo cache (r + 1) next acc cache (r + 1) next
      (by simp) (by simp) (by simp)]
    by_cases h0 : cache &&& letterIdxMask < len letterBytes
    · rw [if_pos h0]
      exact ⟨1, cache >>> letterIdxBits,
        letterBytes.data.getD (cache &&& letterIdxMask) 'a' :: acc, le_refl _, by omega,
        by simp⟩
    · rw [if_neg h0]
      have hj0 : j ≠ 0 := by
        rintro rfl
        apply h0
        simpa [letterIdx] using hv
      obtain ⟨j', rfl⟩ : ∃ j', j = j' + 1 := ⟨j - 1, by omega⟩
      obtain ⟨m, cache', acc', hm1, hm2, heq⟩ := ih g todo (cache >>> letterIdxBits) acc
        ⟨j', by omega, by rw [letterIdx_shift]; exact hv⟩ (by omega)
      refine ⟨m + 1, cache', acc', by omega, by omega, ?_⟩
      simp only [Nat.add_sub_cancel]
      rw [heq]
      congr 1 <;> omega

/-- When none of the `r` unused indices of the cache is valid, the loop discards them all in
`r` iterations and writes nothing. -/
theorem randLoop_discard (src : Nat → Nat) (next : Nat) :
    ∀ (r fuel todo cache : Nat) (acc : List Char),
      (∀ j, j < r → ¬ letterIdx cache j < len letterBytes) → r ≤ fuel →
      randLoop src fuel (todo + 1) cache r next acc =
        randLoop src (fuel - r) (todo + 1) (cache >>> (letterIdxBits * r)) 0 next acc := by
  intro r
  induction r with
  | zero => intro fuel todo cache acc _ _; simp
  | succ r ih =>
    intro fuel todo cache acc hv hf
    obtain ⟨g, rfl⟩ : ∃ g, fuel = g + 1 := ⟨fuel - 1, by omega⟩
    rw [randLoop_step src g todo cache (r + 1) next acc cache (r + 1) next
      (by simp) (by simp) (by simp)]
    have h0 : ¬ cache &&& letterIdxMask < len letterBytes := by
      have := hv 0 (by omega)
      simpa [letterIdx] using this
    rw [if_neg h0]
    simp only [Nat.add_sub_cancel]
    rw [ih g todo (cache >>> letterIdxBits) acc
      (fun j hj => by rw [letterIdx_shift]; exact hv (j + 1) (by omega)) (by omega)]
    congr 1
    · omega
    · rw [← Nat.shiftRight_add, Nat.mul_succ, Nat.add_comm]

/-- With no unused index left, the loop goes on as with a freshly drawn value. -/
theorem randLoop_refill (src : Nat → Nat) (fuel todo cache next : Nat) (acc : List Char) :
    randLoop src (fuel + 1) (todo + 1) cache 0 next acc =
      randLoop src (fuel + 1) (todo + 1) (src next % 2 ^ 63) letterIdxMax (next + 1) acc := by
  rw [randLoop_step src fuel todo cache 0 next acc (src next % 2 ^ 63) letterIdxMax (next + 1)
    (by simp) (by simp) (by simp)]
  rw [randLoop_step src fuel todo (src next % 2 ^ 63) letterIdxMax (next + 1) acc
    (src next % 2 ^ 63) letterIdxMax (next + 1) (by simp [letterIdxMax, letterIdxBits])
    (by simp [letterIdxMax, letterIdxBits]) (by simp [letterIdxMax, letterIdxBits])]

/-- When every value of the source holds a valid index among its `letterIdxMax` ones, the
loop ends: ten iterations for each letter still to be written, plus those that use up the
current cache, are enough. -/
theorem randLoop_terminates (src : Nat → Nat)
    (hsrc : ∀ k, ∃ j, j < letterIdxMax ∧ letterIdx (src k % 2 ^ 63) j < len letterBytes) :
    ∀ (todo fuel cache r next : Nat) (acc : List Char),
      r + letterIdxMax * todo ≤ fuel →
      (randLoop src fuel todo cache r next acc).isSome = true := by
  have hmax : letterIdxMax = 10 := by decide
  intro todo
  induction todo with
  | zero => intro fuel cache r next acc _; cases fuel <;> simp [randLoop]
  | succ todo ih =>
    intro fuel cache r next acc hf
    rw [hmax] at hf
    by_cases hy : ∃ j, j < r ∧ letterIdx cache j < len letterBytes
    · obtain ⟨m, cache', acc', hm1, hm2, heq⟩ :=
        randLoop_progress src next r fuel todo cache acc hy (by omega)
      rw [heq]
      exact ih _ _ _ _ _ (by rw [hmax]; omega)
    · have hn : ∀ j, j < r → ¬ letterIdx cache j < len letterBytes :=
        fun j hj hv => hy ⟨j, hj, hv⟩
      rw [randLoop_discard src next r fuel todo cache acc hn (by omega)]
      obtain ⟨g, hg⟩ : ∃ g, fuel - r = g + 1 := ⟨fuel - r - 1, by omega⟩
      rw [hg, randLoop_refill]
      obtain ⟨m, cache', acc', hm1, hm2, heq⟩ :=
        randLoop_progress src (next + 1) letterIdxMax (g + 1) todo (src next % 2 ^ 63) acc
          (hsrc next) (by rw [hmax]; omega)
      rw [heq]
      rw [hmax] at hm2
      exact ih _ _ _ _ _ (by rw [hmax]; omega)

/-- The 52 characters of `letterBytes` are letters, each encoded in one byte. -/
theorem letterBytes_alphabetic :
    ∀ c ∈ letterBytes.data, c.isAlpha = true ∧ c.utf8Size = 1 := by
  decide

/-- A string of one-byte characters has as many bytes as characters. -/
theorem len_eq_length (l : List Char) (h : ∀ c ∈ l, c.utf8Size = 1) :
    len (String.mk l) = l.length := by
  unfold len
  induction l with
  | nil => rfl
  | cons c cs ih =>
    have h1 : c.utf8Size = 1 := h c (List.mem_cons_self _ _)
    have h2 := ih (fun x hx => h x (List.mem_cons_of_mem _ hx))
    simp only [String.utf8ByteSize, String.utf8ByteSize.go, List.length_cons] at h2 ⊢
    omega

/-- What `randStringBytesMaskImprSrc(n)` returns is made of `n` letters of `letterBytes`. -/
theorem randString_letters (src : Nat → Nat) (fuel n : Nat) (pw : String)
    (h : randStringBytesMaskImprSrc src fuel n = some pw) :
    len pw = n ∧ pw.length = n ∧ ∀ c ∈ pw.data, c ∈ letterBytes.data ∧ c.isAlpha = true := by
  unfold randStringBytesMaskImprSrc at h
  obtain ⟨out, hout, rfl⟩ := Option.map_eq_some'.1 h
  obtain ⟨h1, h2⟩ := randLoop_spec src _ _ _ _ _ _ _ hout
  have hmem : ∀ c ∈ out, c ∈ letterBytes.data := by
    intro c hc
    rcases h2 c hc with h3 | h3
    · simp at h3
    · exact h3
  refine ⟨?_, by simpa [String.length] using h1, fun c hc =>
    ⟨hmem c hc, (letterBytes_alphabetic c (hmem c hc)).1⟩⟩
  rw [len_eq_length out (fun c hc => (letterBytes_alphabetic c (hmem c hc)).2)]
  simpa using h1

/-- The credential in the package state after `StartWalletd` is the one the call found, or,
when the call ended before generating one, the credential produced by
`randStringBytesMaskImprSrc(20)` in this call. -/
theorem StartWalletd_credential (w : World) (s : State) (walletPath walletPassword : String) :
    (StartWalletd w s walletPath walletPassword).state.rpcPassword = s.rpcPassword ∨
    randStringBytesMaskImprSrc w.randSrc w.randFuel 20
      = some (StartWalletd w s walletPath walletPassword).state.rpcPassword := by
  unfold StartWalletd startVerdict
  simp only
  repeat' split
  all_goals first
    | exact Or.inl rfl
    | exact Or.inr (by assumption)

/-- C11: for every length `n` and every sequence of values of the random source, whenever the
loop of `randStringBytesMaskImprSrc(n)` ends it returns a string of exactly `n` characters
(and `n` bytes), each one of the 52 letters of `letterBytes`, so an index of 52..63 never
writes anything; the result does not depend on the fuel once the loop has ended, and the loop
does end, within `10 * (n + 1)` iterations, when every value drawn holds a valid index among
its ten. In particular the credential `StartWalletd` leaves in the package state, when it
generates one, is 20 letters long, and past the spawn it is the generated credential. -/
theorem credential_is_alphabetic :
    (∀ (src : Nat → Nat) (fuel n : Nat) (pw : String),
      randStringBytesMaskImprSrc src fuel n = some pw →
      len pw = n ∧ pw.length = n ∧ ∀ c ∈ pw.data, c ∈ letterBytes.data ∧ c.isAlpha = true) ∧
    (∀ (src : Nat → Nat) (fuel fuel' n : Nat) (pw : String), fuel ≤ fuel' →
      randStringBytesMaskImprSrc src fuel n = some pw →
      randStringBytesMaskImprSrc src fuel' n = some pw) ∧
    (∀ (src : Nat → Nat) (fuel n : Nat),
      (∀ k, ∃ j, j < letterIdxMax ∧ letterIdx (src k % 2 ^ 63) j < len letterBytes) →
      letterIdxMax * (n + 1) ≤ fuel →
      (randStringBytesMaskImprSrc src fuel n).isSome = true) ∧
    (∀ (w : World) (s : State) (walletPath walletPassword : String),
      (StartWalletd w s walletPath walletPassword).state.rpcPassword = s.rpcPassword ∨
      (len (StartWalletd w s walletPath walletPassword).state.rpcPassword = 20 ∧
        ∀ c ∈ (StartWalletd w s walletPath walletPassword).state.rpcPassword.data,
          c ∈ letterBytes.data ∧ c.isAlpha = true)) ∧
    (∀ (w : World) (s : State) (walletPath walletPassword rpcPassword : String),
      StartSpawns w s walletPath rpcPassword →
      (StartWalletd w s walletPath walletPassword).state.rpcPassword = rpcPassword ∧
      len rpcPassword = 20 ∧ ∀ c ∈ rpcPassword.data, c ∈ letterBytes.data ∧ c.isAlpha = true)
    := by
  refine ⟨randString_letters, ?_, ?_, ?_, ?_⟩
  · intro src fuel fuel' n pw hle h
    unfold randStringBytesMaskImprSrc at h ⊢
    obtain ⟨out, hout, rfl⟩ := Option.map_eq_some'.1 h
    rw [randLoop_fuel_mono src fuel fuel' _ _ _ _ _ _ hle hout]
    rfl
  · intro src fuel n hsrc hf
    unfold randStringBytesMaskImprSrc
    rw [Option.isSome_map']
    exact randLoop_terminates src hsrc n fuel _ _ _ _ (by rw [Nat.mul_succ] at hf; omega)
  · intro w s walletPath walletPassword
    rcases StartWalletd_credential w s walletPath walletPassword with h | h
    · exact Or.inl h
    · obtain ⟨h1, _, h3⟩ := randString_letters _ _ _ _ h
      exact Or.inr ⟨h1, h3⟩
  · intro w s walletPath walletPassword rpcPassword h
    obtain ⟨h1, _, h3⟩ := randString_letters _ _ _ _ h.2.2.2.1
    refine ⟨?_, h1, h3⟩
    obtain ⟨cmd, done, heq⟩ := StartWalletd_eq_startVerdict w s walletPath walletPassword
      rpcPassword h
    rw [heq]
    unfold startVerdict
    simp only
    split <;> rfl

/-- The sample source ends the loop with a credential of 20 letters, with any larger fuel
too; a source that always delivers 5 ends the loop for `n = 20` within 210 iterations; and
the sample start installs the sample credential. -/
theorem credential_is_alphabetic_witness :
    (randStringBytesMaskImprSrc (sampleWorld "").randSrc 1000 20 = some "aaaaaaeTAoaaaaaaeTAh" ∧
      len "aaaaaaeTAoaaaaaaeTAh" = 20 ∧ "aaaaaaeTAoaaaaaaeTAh".length = 20 ∧
      ∀ c ∈ "aaaaaaeTAoaaaaaaeTAh".data, c ∈ letterBytes.data ∧ c.isAlpha = true) ∧
    randStringBytesMaskImprSrc (sampleWorld "").randSrc 2000 20 = some "aaaaaaeTAoaaaaaaeTAh" ∧
    ((∀ k, ∃ j, j < letterIdxMax ∧
        letterIdx (constantSource 5 k % 2 ^ 63) j < len letterBytes) ∧
      (randStringBytesMaskImprSrc (constantSource 5) 210 20).isSome = true) ∧
    (StartSpawns (sampleWorld "") State.init "wallets/my.wallet" "aaaaaaeTAoaaaaaaeTAh" ∧
      (StartWalletd (sampleWorld "") State.init "wallets/my.wallet" "secret").state.rpcPassword
        = "aaaaaaeTAoaaaaaaeTAh") :=
  ⟨⟨by decide,
    credential_is_alphabetic.1 (sampleWorld "").randSrc 1000 20 "aaaaaaeTAoaaaaaaeTAh"
      (by decide)⟩,
   credential_is_alphabetic.2.1 (sampleWorld "").randSrc 1000 2000 20 "aaaaaaeTAoaaaaaaeTAh"
      (by decide) (by decide),
   ⟨fun _ => ⟨0, by decide, show letterIdx (5 % 2 ^ 63) 0 < len letterBytes by decide⟩,
    credential_is_alphabetic.2.2.1 (constantSource 5) 210 20
      (fun _ => ⟨0, by decide, show letterIdx (5 % 2 ^ 63) 0 < len letterBytes by decide⟩)
      (by decide)⟩,
   ⟨by decide,
    (credential_is_alphabetic.2.2.2.2 (sampleWorld "") State.init "wallets/my.wallet" "secret"
      "aaaaaaeTAoaaaaaaeTAh" (by decide)).1⟩⟩

end Walletd
